import Mathlib

/-!
Verification of the authenticated HTTP client facade in `src/services/api.js`:
the request interceptor (token attachment), the response interceptor
(single-flight token refresh state machine), and the error normalization of
the exported API functions `logSession` and `getLoggedSessions`.

The JavaScript module is shallowly embedded:
* pure pieces (the request interceptor, the error normalizers) become Lean
  functions over an explicit JSON value model;
* the response interceptor's refresh coordinator becomes a small-step event
  system over an explicit configuration (`Cfg`), where one step corresponds to
  one synchronous block of the single-threaded event loop (the JS runtime
  guarantees no interleaving inside such a block).
-/

/-- JSON values as they occur in axios `error.response.data` payloads.
Arrays are omitted; the payloads relevant to this client are objects,
strings, numbers, booleans and null. -/
inductive Json where
  | null : Json
  | bool (b : Bool) : Json
  | num (n : Int) : Json
  | str (s : String) : Json
  | obj (fields : List (String × Json)) : Json

/-- JavaScript truthiness of a JSON value (`null`, `false`, `0` and the empty
string are falsy; objects are always truthy). -/
def jsTruthy : Json → Bool
  | Json.null => false
  | Json.bool b => b
  | Json.num n => n != 0
  | Json.str s => s != ""
  | Json.obj _ => true

/-- `typeof v === 'object'` for a (non-null-guarded) JSON value: only object
payloads qualify here, since the `data &&` guard in the source already
excludes `null`. -/
def isObjType : Json → Bool
  | Json.obj _ => true
  | _ => false

/-- Field access `v?.k`: `undefined` (here `none`) on non-objects and on
missing keys. -/
def Json.getField : Json → String → Option Json
  | Json.obj fs, k => fs.lookup k
  | _, _ => none

/-- `String(v)`: the string JavaScript's `Error` constructor stores when
handed this value as its message. -/
def jsToString : Json → String
  | Json.null => "null"
  | Json.bool true => "true"
  | Json.bool false => "false"
  | Json.num n => toString n
  | Json.str s => s
  | Json.obj _ => "[object Object]"

mutual

/-- `JSON.stringify` restricted to the modelled JSON fragment (string
escaping is not modelled; the payloads in scope contain no characters that
need escaping). -/
def stringify : Json → String
  | Json.null => "null"
  | Json.bool true => "true"
  | Json.bool false => "false"
  | Json.num n => toString n
  | Json.str s => "\"" ++ s ++ "\""
  | Json.obj fs => "\x7b" ++ stringifyFields fs ++ "\x7d"

/-- Comma-separated rendering of an object's fields. -/
def stringifyFields : List (String × Json) → String
  | [] => ""
  | [(k, v)] => "\"" ++ k ++ "\":" ++ stringify v
  | (k, v) :: f :: fs =>
      "\"" ++ k ++ "\":" ++ stringify v ++ "," ++ stringifyFields (f :: fs)

end

/-- The three failure shapes axios hands to a `catch` block: a server reply
with an error status (`error.response` set), a sent request with no reply
(`error.request` set), and a failure before the request was sent. -/
inductive AxiosFailure where
  | response (data : Json) (status : Nat) : AxiosFailure
  | request : AxiosFailure
  | setup : AxiosFailure

/-- The normalized error object the exported API functions throw:
`message`, plus `data`/`status` copied from the server response when one
exists. -/
structure ApiError where
  message : String
  data : Option Json
  status : Option Nat

/-- Error normalization of `logSession` (src/services/api.js): message is
`error.response.data?.detail`, else `JSON.stringify(error.response.data)`
when the data is a (non-null) object, else `API Error: <status>`; a
no-response failure and a setup failure yield fixed generic messages. -/
def logSessionErr : AxiosFailure → ApiError
  | AxiosFailure.response data status =>
      let detail := (data.getField ("detail")).filter jsTruthy
      let msg :=
        match detail with
        | some d => jsToString d
        | none =>
            if jsTruthy data && isObjType data then
              let rendered := stringify data
              if rendered != "" then rendered
              else "API Error: " ++ toString status
            else "API Error: " ++ toString status
      { message := msg, data := some data, status := some status }
  | AxiosFailure.request =>
      { message := "Network Error: Could not connect to server.",
        data := none, status := none }
  | AxiosFailure.setup =>
      { message := "Request setup error.", data := none, status := none }

/-- Error normalization of `getLoggedSessions` (src/services/api.js):
message is `error.response.data?.detail`, else `error.response.data?.message`,
else `API Error: <status>`; no-response and setup failures as in
`logSessionErr`. -/
def getLoggedSessionsErr : AxiosFailure → ApiError
  | AxiosFailure.response data status =>
      let detail := (data.getField ("detail")).filter jsTruthy
      let msg :=
        match detail with
        | some d => jsToString d
        | none =>
            match (data.getField ("message")).filter jsTruthy with
            | some m => jsToString m
            | none => "API Error: " ++ toString status
      { message := msg, data := some data, status := some status }
  | AxiosFailure.request =>
      { message := "Network Error: Could not connect to server.",
        data := none, status := none }
  | AxiosFailure.setup =>
      { message := "Request setup error.", data := none, status := none }

/-- Modelled from the spec: the single normalization rule the spec states is
"applied uniformly" to every API method's response-carrying failure —
server-provided `detail` field if present, else a JSON rendering of the
response body, else the generic `API Error: <status>` string. -/
def uniformSpecMessage (data : Json) (status : Nat) : String :=
  match (data.getField ("detail")).filter jsTruthy with
  | some d => jsToString d
  | none =>
      match data with
      | Json.null => "API Error: " ++ toString status
      | d => stringify d

/-- An outgoing axios request descriptor, as seen by the request
interceptor: the `Authorization` header is tracked separately from the
remaining headers so that the frame condition can be stated. -/
structure ReqConfig where
  url : String
  method : String
  body : Option String
  authorization : Option String
  otherHeaders : List (String × String)
deriving DecidableEq

/-- The request interceptor (src/services/api.js): reads the access token
from the credential store (`localStorage.getItem('accessToken')`, `none`
when absent) and, when the token is truthy (`if (token)` — the empty string
is falsy in JavaScript), sets the `Authorization: Bearer <token>` header;
otherwise the descriptor passes through unchanged. -/
def requestInterceptor (accessToken : Option String) (config : ReqConfig) :
    ReqConfig :=
  match accessToken with
  | some t =>
      if t != "" then { config with authorization := some ("Bearer " ++ t) }
      else config
  | none => config

/-- The token-refresh endpoint path (src/services/api.js). -/
def REFRESH_TOKEN_ENDPOINT : String := "/api/token/refresh/"

/-- JavaScript `url.endsWith(suffix)`, computed on the underlying character
lists. -/
def urlEndsWith (u suffixStr : String) : Bool :=
  List.isSuffixOf suffixStr.data u.data

/-- JavaScript falsiness of a store read: `null` (absent) and the empty
string are falsy. -/
def jsFalsyStr : Option String → Bool
  | none => true
  | some s => s == ""

/-- The mutable request config object of one original request, as far as the
interceptors touch it: its URL, its `Authorization` header, and the `_retry`
marker. -/
structure Req where
  url : String
  auth : Option String
  retried : Bool
deriving DecidableEq

/-- Error values flowing through rejections: an HTTP error of request `rid`
with an optional response status (`none` = no server response), or the
rejection of the `rid`-independent refresh exchange. -/
inductive ErrVal where
  | http (rid : Nat) (status : Option Nat) : ErrVal
  | refreshFail (code : Nat) : ErrVal
deriving DecidableEq

/-- `error.response?.status`. -/
def errStatus : ErrVal → Option Nat
  | ErrVal.http _ s => s
  | ErrVal.refreshFail _ => none

/-- The trigger condition of the response interceptor (src/services/api.js):
`error.response?.status === 401 && !originalRequest._retry &&
!originalRequest.url.endsWith(REFRESH_TOKEN_ENDPOINT)`. -/
def intercepts (status : Option Nat) (req : Req) : Bool :=
  status == some 401 && !req.retried &&
    !(urlEndsWith req.url REFRESH_TOKEN_ENDPOINT)

/-- Where one failed request stands in its journey through the response
interceptor. -/
inductive Phase where
  | entry (req : Req) (err : ErrVal) : Phase
  | awaitQueue (req : Req) : Phase
  | queueResolved (req : Req) (token : String) : Phase
  | awaitRefresh (req : Req) : Phase
  | awaitReplay (req : Req) : Phase
  | doneOk : Phase
  | doneErr (e : ErrVal) : Phase
deriving DecidableEq

/-- One in-flight caller: its promise-chain identity and its current phase. -/
structure CallerTask where
  id : Nat
  phase : Phase
deriving DecidableEq

/-- The whole observable state of the module: the in-flight callers, the
module-scoped `failedQueue` and `isRefreshing`, the credential store
(`localStorage`), `apiClient.defaults.headers.common['Authorization']`, and
instrumentation counters for the logout side effect
(`window.location.href = '/login'`) and for started refresh exchanges. -/
structure Cfg where
  tasks : List CallerTask
  failedQueue : List Nat
  isRefreshing : Bool
  accessToken : Option String
  refreshToken : Option String
  defaultAuth : Option String
  logoutCount : Nat
  refreshCalls : Nat
  nextId : Nat
deriving DecidableEq

/-- Look a task up by id. -/
def getTask (c : Cfg) (i : Nat) : Option CallerTask :=
  c.tasks.find? (fun t => t.id == i)

/-- The phase of task `i`, when it exists. -/
def taskPhase (c : Cfg) (i : Nat) : Option Phase :=
  (getTask c i).map CallerTask.phase

/-- Replace the phase of the task with id `i`. -/
def setPhaseF (i : Nat) (p : Phase) (t : CallerTask) : CallerTask :=
  if t.id == i then { t with phase := p } else t

/-- Replace the phase of the task with id `i` in a task list. -/
def setPhase (ts : List CallerTask) (i : Nat) (p : Phase) : List CallerTask :=
  ts.map (setPhaseF i p)

/-- `processQueue(error, token)` (src/services/api.js) acting on one task:
every task whose promise handle sits in `failedQueue` is resolved with the
new token (on refresh success) or rejected with the refresh error (on
refresh failure). -/
def processQueueF (q : List Nat) (outcome : Except ErrVal String) (t : CallerTask) :
    CallerTask :=
  match t.phase with
  | Phase.awaitQueue r =>
      if q.contains t.id then
        match outcome with
        | Except.ok tok => { t with phase := Phase.queueResolved r tok }
        | Except.error e => { t with phase := Phase.doneErr e }
      else t
  | _ => t

/-- `processQueue(error, token)` over the whole task list. -/
def processQueue (ts : List CallerTask) (q : List Nat)
    (outcome : Except ErrVal String) : List CallerTask :=
  ts.map (processQueueF q outcome)

/-- The request interceptor's effect on a request's `Authorization` header:
set `Bearer <token>` when the stored access token is truthy, keep the
existing header otherwise. -/
def attachAuth (tok : Option String) (old : Option String) : Option String :=
  match tok with
  | some t => if t != "" then some ("Bearer " ++ t) else old
  | none => old

/-- Scheduler events. Each event fires one synchronous block of the event
loop: a new 401-failed request entering the response interceptor's error
handler (`arrive` creates it, `handle` runs the handler), the resolution or
rejection of the in-flight refresh exchange (`refreshOk` / `refreshFailEv` —
a thrown error during the exchange lands in the same `catch`, hence in
`refreshFailEv`), a queued caller's continuation running after its promise
was resolved (`resume`), and the completion of a replayed request
(`replayOk` / `replayFail`). -/
inductive Event where
  | arrive (url : String) (status : Option Nat) : Event
  | handle (i : Nat) : Event
  | refreshOk (i : Nat) (token : String) : Event
  | refreshFailEv (i : Nat) (code : Nat) : Event
  | resume (i : Nat) : Event
  | replayOk (i : Nat) : Event
  | replayFail (i : Nat) (status : Option Nat) : Event
deriving DecidableEq

/-- One synchronous block of the event loop. `Event.handle` is the error
handler of `apiClient.interceptors.response` (src/services/api.js): 401s on
non-refresh, non-retried requests are queued when `isRefreshing`, force an
immediate logout when the refresh token is falsy (the source sets
`isRefreshing = true` and then back to `false` inside the same synchronous
block, so only the net effect is visible), and otherwise mark the request
retried, raise `isRefreshing`, and start the single refresh exchange.
`refreshOk` stores the new token, sets the default header, rewrites the
triggering request's header, drains the queue via `processQueue`, starts the
replay, and — in the `finally` — lowers `isRefreshing`. `refreshFailEv`
drains the queue with the refresh error, clears both tokens, fires the
logout redirect, rejects the triggering request, and lowers `isRefreshing`
in the same `finally`. -/
def step (c : Cfg) (e : Event) : Option Cfg :=
  match e with
  | Event.arrive url status =>
      some { c with
        tasks := c.tasks ++
          [⟨c.nextId,
            Phase.entry ⟨url, attachAuth c.accessToken none, false⟩
              (ErrVal.http c.nextId status)⟩],
        nextId := c.nextId + 1 }
  | Event.handle i =>
      match getTask c i with
      | some t =>
          match t.phase with
          | Phase.entry req err =>
              if intercepts (errStatus err) req then
                if c.isRefreshing then
                  some { c with
                    tasks := setPhase c.tasks i (Phase.awaitQueue req),
                    failedQueue := c.failedQueue ++ [i] }
                else if jsFalsyStr c.refreshToken then
                  some { c with
                    tasks := setPhase c.tasks i (Phase.doneErr err),
                    accessToken := none,
                    refreshToken := none,
                    logoutCount := c.logoutCount + 1 }
                else
                  some { c with
                    tasks := setPhase c.tasks i
                      (Phase.awaitRefresh { req with retried := true }),
                    isRefreshing := true,
                    refreshCalls := c.refreshCalls + 1 }
              else
                some { c with tasks := setPhase c.tasks i (Phase.doneErr err) }
          | _ => none
      | none => none
  | Event.refreshOk i tok =>
      match getTask c i with
      | some t =>
          match t.phase with
          | Phase.awaitRefresh req =>
              some { c with
                tasks := setPhase
                  (processQueue c.tasks c.failedQueue (Except.ok tok)) i
                  (Phase.awaitReplay { req with auth := some ("Bearer " ++ tok) }),
                failedQueue := [],
                isRefreshing := false,
                accessToken := some tok,
                defaultAuth := some ("Bearer " ++ tok) }
          | _ => none
      | none => none
  | Event.refreshFailEv i code =>
      match getTask c i with
      | some t =>
          match t.phase with
          | Phase.awaitRefresh _ =>
              some { c with
                tasks := setPhase
                  (processQueue c.tasks c.failedQueue
                    (Except.error (ErrVal.refreshFail code))) i
                  (Phase.doneErr (ErrVal.refreshFail code)),
                failedQueue := [],
                isRefreshing := false,
                accessToken := none,
                refreshToken := none,
                logoutCount := c.logoutCount + 1 }
          | _ => none
      | none => none
  | Event.resume i =>
      match getTask c i with
      | some t =>
          match t.phase with
          | Phase.queueResolved req tok =>
              some { c with
                tasks := setPhase c.tasks i
                  (Phase.awaitReplay { req with auth := some ("Bearer " ++ tok) }) }
          | _ => none
      | none => none
  | Event.replayOk i =>
      match getTask c i with
      | some t =>
          match t.phase with
          | Phase.awaitReplay _ =>
              some { c with tasks := setPhase c.tasks i Phase.doneOk }
          | _ => none
      | none => none
  | Event.replayFail i status =>
      match getTask c i with
      | some t =>
          match t.phase with
          | Phase.awaitReplay req =>
              some { c with
                tasks := setPhase c.tasks i
                  (Phase.entry { req with auth := attachAuth c.accessToken req.auth }
                    (ErrVal.http i status)) }
          | _ => none
      | none => none

/-- Run a list of scheduler events. -/
def runEvents : Cfg → List Event → Option Cfg
  | c, [] => some c
  | c, e :: es =>
      match step c e with
      | some c2 => runEvents c2 es
      | none => none

/-- A freshly loaded module: empty queue, not refreshing, arbitrary stored
tokens. -/
def initCfg (acc rt : Option String) : Cfg :=
  { tasks := [], failedQueue := [], isRefreshing := false, accessToken := acc,
    refreshToken := rt, defaultAuth := none, logoutCount := 0,
    refreshCalls := 0, nextId := 0 }

/-- Reachable configurations. -/
def Reach (c : Cfg) : Prop :=
  ∃ acc rt evs, runEvents (initCfg acc rt) evs = some c

/-- Is this phase `awaitQueue`? -/
def isAwaitQueue : Phase → Bool
  | Phase.awaitQueue _ => true
  | _ => false

/-- Is this optional phase `awaitQueue`? -/
def optIsAwaitQueue : Option Phase → Bool
  | some p => isAwaitQueue p
  | none => false

/-- The structural invariant of the refresh coordinator: the queue is empty
whenever `isRefreshing` is down, every queue entry belongs to a task that is
actually waiting on it, and every waiting task has its entry in the queue. -/
def CoordInv (c : Cfg) : Prop :=
  (c.isRefreshing = false → c.failedQueue = []) ∧
  (∀ j ∈ c.failedQueue, optIsAwaitQueue (taskPhase c j) = true) ∧
  (∀ t ∈ c.tasks, isAwaitQueue t.phase = true → c.failedQueue.contains t.id = true)

instance (c : Cfg) : Decidable (CoordInv c) := by
  unfold CoordInv; infer_instance

/-- `isRefreshing` stays up at every point of an event sequence (checked on
the pre-state of each step). -/
def refreshingAlong : Cfg → List Event → Bool
  | _, [] => true
  | c, e :: es =>
      c.isRefreshing &&
        (match step c e with
         | some c2 => refreshingAlong c2 es
         | none => true)

/-- A sample outgoing request descriptor. -/
def sampleReqConfig : ReqConfig :=
  { url := "/api/solo/session-logs/", method := "post", body := none,
    authorization := none, otherHeaders := [] }

/-- Response body `\x7b"foo":"bar"\x7d`: no detail field, no message field. -/
def dataFooBar : Json := Json.obj [("foo", Json.str ("bar"))]

/-- Response body with a detail field. -/
def dataDetail : Json := Json.obj [("detail", Json.str ("Denied"))]

/-- Response body with a message field but no detail field. -/
def dataMsg : Json := Json.obj [("message", Json.str ("boom"))]

/-- Event sequence: request 0 fails 401 and starts a refresh; request 1
fails 401 while the refresh is in flight and is queued. -/
def evsRefreshing : List Event :=
  [Event.arrive ("/api/solo/assigned-routines/") (some 401), Event.handle 0,
   Event.arrive ("/api/solo/session-logs/") (some 401), Event.handle 1]

/-- The configuration reached by `evsRefreshing` from a store holding access
token A1 and refresh token R1. -/
def cfgRefreshing : Cfg :=
  { tasks :=
      [⟨0, Phase.awaitRefresh
          { url := "/api/solo/assigned-routines/",
            auth := some ("Bearer A1"), retried := true }⟩,
       ⟨1, Phase.awaitQueue
          { url := "/api/solo/session-logs/",
            auth := some ("Bearer A1"), retried := false }⟩],
    failedQueue := [1], isRefreshing := true, accessToken := some ("A1"),
    refreshToken := some ("R1"), defaultAuth := none, logoutCount := 0,
    refreshCalls := 1, nextId := 2 }

/-- `evsRefreshing` plus a third 401-failed request that has not yet entered
the handler. -/
def evsRefreshing3 : List Event :=
  evsRefreshing ++ [Event.arrive ("/api/solo/assigned-routines/") (some 401)]

/-- The configuration reached by `evsRefreshing3`. -/
def cfgRefreshing3 : Cfg :=
  { cfgRefreshing with
    tasks := cfgRefreshing.tasks ++
      [⟨2, Phase.entry
          { url := "/api/solo/assigned-routines/",
            auth := some ("Bearer A1"), retried := false }
          (ErrVal.http 2 (some 401))⟩],
    nextId := 3 }

/-- `cfgRefreshing3` after the third request's handler runs: it joins the
queue. -/
def cfgQueued3 : Cfg :=
  { tasks :=
      [⟨0, Phase.awaitRefresh
          { url := "/api/solo/assigned-routines/",
            auth := some ("Bearer A1"), retried := true }⟩,
       ⟨1, Phase.awaitQueue
          { url := "/api/solo/session-logs/",
            auth := some ("Bearer A1"), retried := false }⟩,
       ⟨2, Phase.awaitQueue
          { url := "/api/solo/assigned-routines/",
            auth := some ("Bearer A1"), retried := false }⟩],
    failedQueue := [1, 2], isRefreshing := true, accessToken := some ("A1"),
    refreshToken := some ("R1"), defaultAuth := none, logoutCount := 0,
    refreshCalls := 1, nextId := 3 }

/-- `cfgRefreshing` after the refresh exchange succeeds with token T2. -/
def cfgSuccAfter : Cfg :=
  { tasks :=
      [⟨0, Phase.awaitReplay
          { url := "/api/solo/assigned-routines/",
            auth := some ("Bearer T2"), retried := true }⟩,
       ⟨1, Phase.queueResolved
          { url := "/api/solo/session-logs/",
            auth := some ("Bearer A1"), retried := false } ("T2")⟩],
    failedQueue := [], isRefreshing := false, accessToken := some ("T2"),
    refreshToken := some ("R1"), defaultAuth := some ("Bearer T2"),
    logoutCount := 0, refreshCalls := 1, nextId := 2 }

/-- `cfgRefreshing` after the refresh exchange rejects (error code 7). -/
def cfgFailAfter : Cfg :=
  { tasks :=
      [⟨0, Phase.doneErr (ErrVal.refreshFail 7)⟩,
       ⟨1, Phase.doneErr (ErrVal.refreshFail 7)⟩],
    failedQueue := [], isRefreshing := false, accessToken := none,
    refreshToken := none, defaultAuth := none, logoutCount := 1,
    refreshCalls := 1, nextId := 2 }

/-- A 401-failed request entered the handler while the store holds no
refresh token. -/
def cfgNoRefreshTok : Cfg :=
  { tasks :=
      [⟨0, Phase.entry
          { url := "/api/solo/session-logs/",
            auth := some ("Bearer A1"), retried := false }
          (ErrVal.http 0 (some 401))⟩],
    failedQueue := [], isRefreshing := false, accessToken := some ("A1"),
    refreshToken := none, defaultAuth := none, logoutCount := 0,
    refreshCalls := 0, nextId := 1 }

/-- `cfgNoRefreshTok` after the handler runs: immediate logout. -/
def cfgNoTokAfter : Cfg :=
  { tasks := [⟨0, Phase.doneErr (ErrVal.http 0 (some 401))⟩],
    failedQueue := [], isRefreshing := false, accessToken := none,
    refreshToken := none, defaultAuth := none, logoutCount := 1,
    refreshCalls := 0, nextId := 1 }

/-- A request failed with a 500 status. -/
def cfg500 : Cfg :=
  { tasks :=
      [⟨0, Phase.entry
          { url := "/api/solo/session-logs/",
            auth := some ("Bearer A1"), retried := false }
          (ErrVal.http 0 (some 500))⟩],
    failedQueue := [], isRefreshing := false, accessToken := some ("A1"),
    refreshToken := some ("R1"), defaultAuth := none, logoutCount := 0,
    refreshCalls := 0, nextId := 1 }

/-- `cfg500` after the handler runs: the error passes through untouched. -/
def cfg500After : Cfg :=
  { cfg500 with tasks := [⟨0, Phase.doneErr (ErrVal.http 0 (some 500))⟩] }

/-- A request already marked retried fails with 401 again. -/
def cfgRetried : Cfg :=
  { tasks :=
      [⟨0, Phase.entry
          { url := "/api/solo/assigned-routines/",
            auth := some ("Bearer T2"), retried := true }
          (ErrVal.http 0 (some 401))⟩],
    failedQueue := [], isRefreshing := false, accessToken := some ("T2"),
    refreshToken := some ("R1"), defaultAuth := some ("Bearer T2"),
    logoutCount := 0, refreshCalls := 1, nextId := 1 }

/-- `cfgRetried` after the handler runs: second failure propagates. -/
def cfgRetriedAfter : Cfg :=
  { cfgRetried with tasks := [⟨0, Phase.doneErr (ErrVal.http 0 (some 401))⟩] }

/-- Events: 401 on request 0 starts a refresh, 401 on request 1 queues it,
refresh succeeds with T2, queued request 1 resumes and replays. -/
def evsQueuedReplay : List Event :=
  evsRefreshing ++ [Event.refreshOk 0 ("T2"), Event.resume 1]

/-- State after `evsQueuedReplay`: request 1 is in its first replay and its
`_retry` marker is still unset. -/
def cfgQueuedReplay : Cfg :=
  { tasks :=
      [⟨0, Phase.awaitReplay
          { url := "/api/solo/assigned-routines/",
            auth := some ("Bearer T2"), retried := true }⟩,
       ⟨1, Phase.awaitReplay
          { url := "/api/solo/session-logs/",
            auth := some ("Bearer T2"), retried := false }⟩],
    failedQueue := [], isRefreshing := false, accessToken := some ("T2"),
    refreshToken := some ("R1"), defaultAuth := some ("Bearer T2"),
    logoutCount := 0, refreshCalls := 1, nextId := 2 }

/-- Events: request 1's replay fails 401 again; being unmarked it is
intercepted again, triggers a second refresh, and is replayed a second
time. -/
def evsSecondRetry : List Event :=
  [Event.replayFail 1 (some 401), Event.handle 1, Event.refreshOk 1 ("T3")]

/-- State after `evsSecondRetry` from `cfgQueuedReplay`: request 1 is in its
second replay; two refresh exchanges have been performed. -/
def cfgSecondRetry : Cfg :=
  { tasks :=
      [⟨0, Phase.awaitReplay
          { url := "/api/solo/assigned-routines/",
            auth := some ("Bearer T2"), retried := true }⟩,
       ⟨1, Phase.awaitReplay
          { url := "/api/solo/session-logs/",
            auth := some ("Bearer T3"), retried := true }⟩],
    failedQueue := [], isRefreshing := false, accessToken := some ("T3"),
    refreshToken := some ("R1"), defaultAuth := some ("Bearer T3"),
    logoutCount := 0, refreshCalls := 2, nextId := 2 }

lemma setPhaseF_id (i : Nat) (p : Phase) (t : CallerTask) :
    (setPhaseF i p t).id = t.id := by
  unfold setPhaseF; split <;> rfl

lemma processQueueF_id (q : List Nat) (o : Except ErrVal String)
    (t : CallerTask) : (processQueueF q o t).id = t.id := by
  unfold processQueueF
  split
  · split
    · split <;> rfl
    · rfl
  · rfl

lemma find?_map_of_id (f : CallerTask → CallerTask)
    (hf : ∀ t, (f t).id = t.id) (ts : List CallerTask) (j : Nat) :
    (ts.map f).find? (fun t => t.id == j) =
      (ts.find? (fun t => t.id == j)).map f := by
  induction ts with
  | nil => rfl
  | cons t ts ih =>
      simp only [List.map_cons, List.find?_cons, hf t]
      cases h : (t.id == j)
      · simpa [h] using ih
      · simp [h]

lemma find?_setPhase (ts : List CallerTask) (i j : Nat) (p : Phase) :
    (setPhase ts i p).find? (fun t => t.id == j) =
      (ts.find? (fun t => t.id == j)).map (setPhaseF i p) :=
  find?_map_of_id _ (setPhaseF_id i p) ts j

lemma find?_processQueue (ts : List CallerTask) (q : List Nat)
    (o : Except ErrVal String) (j : Nat) :
    (processQueue ts q o).find? (fun t => t.id == j) =
      (ts.find? (fun t => t.id == j)).map (processQueueF q o) :=
  find?_map_of_id _ (processQueueF_id q o) ts j

lemma find?_append_left (ts l : List CallerTask) (p : CallerTask → Bool)
    (t : CallerTask) (h : ts.find? p = some t) : (ts ++ l).find? p = some t := by
  induction ts with
  | nil => simp at h
  | cons a ts ih =>
      simp only [List.find?_cons] at h
      simp only [List.cons_append, List.find?_cons]
      cases hp : p a
      · rw [hp] at h; exact ih h
      · rw [hp] at h; exact h

lemma optIsAwaitQueue_iff (op : Option Phase) :
    optIsAwaitQueue op = true ↔ ∃ r, op = some (Phase.awaitQueue r) := by
  cases op with
  | none => simp [optIsAwaitQueue]
  | some p => cases p <;> simp [optIsAwaitQueue, isAwaitQueue]

lemma isAwaitQueue_iff (p : Phase) :
    isAwaitQueue p = true ↔ ∃ r, p = Phase.awaitQueue r := by
  cases p <;> simp [isAwaitQueue]

lemma getTask_id (c : Cfg) (i : Nat) (t : CallerTask)
    (h : getTask c i = some t) : t.id = i := by
  unfold getTask at h
  have := List.find?_some h
  simpa using this

lemma setPhaseF_of_id (i : Nat) (p : Phase) (t : CallerTask)
    (h : t.id = i) : setPhaseF i p t = { t with phase := p } := by
  simp [setPhaseF, h]

lemma setPhaseF_of_ne (i : Nat) (p : Phase) (t : CallerTask)
    (h : ¬ t.id = i) : setPhaseF i p t = t := by
  simp [setPhaseF, h]

lemma step_arrive_inv (c c2 : Cfg) (url : String) (status : Option Nat)
    (h : step c (Event.arrive url status) = some c2) :
    c2 = { c with
      tasks := c.tasks ++
        [⟨c.nextId,
          Phase.entry ⟨url, attachAuth c.accessToken none, false⟩
            (ErrVal.http c.nextId status)⟩],
      nextId := c.nextId + 1 } := by
  simp only [step, Option.some.injEq] at h
  exact h.symm

lemma step_handle_inv (c c2 : Cfg) (i : Nat)
    (h : step c (Event.handle i) = some c2) :
    ∃ t req err, getTask c i = some t ∧ t.phase = Phase.entry req err ∧
      ((intercepts (errStatus err) req = false ∧
          c2 = { c with tasks := setPhase c.tasks i (Phase.doneErr err) }) ∨
       (intercepts (errStatus err) req = true ∧ c.isRefreshing = true ∧
          c2 = { c with tasks := setPhase c.tasks i (Phase.awaitQueue req),
                        failedQueue := c.failedQueue ++ [i] }) ∨
       (intercepts (errStatus err) req = true ∧ c.isRefreshing = false ∧
          jsFalsyStr c.refreshToken = true ∧
          c2 = { c with tasks := setPhase c.tasks i (Phase.doneErr err),
                        accessToken := none, refreshToken := none,
                        logoutCount := c.logoutCount + 1 }) ∨
       (intercepts (errStatus err) req = true ∧ c.isRefreshing = false ∧
          jsFalsyStr c.refreshToken = false ∧
          c2 = { c with tasks := setPhase c.tasks i
                          (Phase.awaitRefresh { req with retried := true }),
                        isRefreshing := true,
                        refreshCalls := c.refreshCalls + 1 })) := by
  simp only [step] at h
  split at h
  case h_2 => exact absurd h (by simp)
  case h_1 t heq =>
    split at h
    case h_1 req err hp =>
      refine ⟨t, req, err, heq, hp, ?_⟩
      by_cases hi : intercepts (errStatus err) req = true
      · rw [if_pos hi] at h
        by_cases hr : c.isRefreshing = true
        · rw [if_pos hr] at h
          exact Or.inr (Or.inl ⟨hi, hr, (Option.some.injEq _ _).mp h |>.symm⟩)
        · rw [if_neg hr] at h
          have hr2 : c.isRefreshing = false := by
            cases hb : c.isRefreshing
            · rfl
            · exact absurd hb hr
          by_cases hf : jsFalsyStr c.refreshToken = true
          · rw [if_pos hf] at h
            exact Or.inr (Or.inr (Or.inl
              ⟨hi, hr2, hf, (Option.some.injEq _ _).mp h |>.symm⟩))
          · rw [if_neg hf] at h
            have hf2 : jsFalsyStr c.refreshToken = false := by
              cases hb : jsFalsyStr c.refreshToken
              · rfl
              · exact absurd hb hf
            exact Or.inr (Or.inr (Or.inr
              ⟨hi, hr2, hf2, (Option.some.injEq _ _).mp h |>.symm⟩))
      · rw [if_neg hi] at h
        have hi2 : intercepts (errStatus err) req = false := by
          cases hb : intercepts (errStatus err) req
          · rfl
          · exact absurd hb hi
        exact Or.inl ⟨hi2, (Option.some.injEq _ _).mp h |>.symm⟩
    all_goals exact absurd h (by simp)

lemma step_refreshOk_inv (c c2 : Cfg) (i : Nat) (tok : String)
    (h : step c (Event.refreshOk i tok) = some c2) :
    ∃ t req, getTask c i = some t ∧ t.phase = Phase.awaitRefresh req ∧
      c2 = { c with
        tasks := setPhase (processQueue c.tasks c.failedQueue (Except.ok tok)) i
          (Phase.awaitReplay { req with auth := some ("Bearer " ++ tok) }),
        failedQueue := [],
        isRefreshing := false,
        accessToken := some tok,
        defaultAuth := some ("Bearer " ++ tok) } := by
  simp only [step] at h
  split at h
  case h_2 => exact absurd h (by simp)
  case h_1 t heq =>
    split at h
    case h_1 req hp =>
      exact ⟨t, req, heq, hp, ((Option.some.injEq _ _).mp h).symm⟩
    all_goals exact absurd h (by simp)

lemma step_refreshFail_inv (c c2 : Cfg) (i : Nat) (code : Nat)
    (h : step c (Event.refreshFailEv i code) = some c2) :
    ∃ t req, getTask c i = some t ∧ t.phase = Phase.awaitRefresh req ∧
      c2 = { c with
        tasks := setPhase
          (processQueue c.tasks c.failedQueue
            (Except.error (ErrVal.refreshFail code))) i
          (Phase.doneErr (ErrVal.refreshFail code)),
        failedQueue := [],
        isRefreshing := false,
        accessToken := none,
        refreshToken := none,
        logoutCount := c.logoutCount + 1 } := by
  simp only [step] at h
  split at h
  case h_2 => exact absurd h (by simp)
  case h_1 t heq =>
    split at h
    case h_1 req hp =>
      exact ⟨t, req, heq, hp, ((Option.some.injEq _ _).mp h).symm⟩
    all_goals exact absurd h (by simp)

lemma step_resume_inv (c c2 : Cfg) (i : Nat)
    (h : step c (Event.resume i) = some c2) :
    ∃ t req tok, getTask c i = some t ∧
      t.phase = Phase.queueResolved req tok ∧
      c2 = { c with
        tasks := setPhase c.tasks i
          (Phase.awaitReplay { req with auth := some ("Bearer " ++ tok) }) } := by
  simp only [step] at h
  split at h
  case h_2 => exact absurd h (by simp)
  case h_1 t heq =>
    split at h
    case h_1 req tok hp =>
      exact ⟨t, req, tok, heq, hp, ((Option.some.injEq _ _).mp h).symm⟩
    all_goals exact absurd h (by simp)

lemma step_replayOk_inv (c c2 : Cfg) (i : Nat)
    (h : step c (Event.replayOk i) = some c2) :
    ∃ t req, getTask c i = some t ∧ t.phase = Phase.awaitReplay req ∧
      c2 = { c with tasks := setPhase c.tasks i Phase.doneOk } := by
  simp only [step] at h
  split at h
  case h_2 => exact absurd h (by simp)
  case h_1 t heq =>
    split at h
    case h_1 req hp =>
      exact ⟨t, req, heq, hp, ((Option.some.injEq _ _).mp h).symm⟩
    all_goals exact absurd h (by simp)

lemma step_replayFail_inv (c c2 : Cfg) (i : Nat) (status : Option Nat)
    (h : step c (Event.replayFail i status) = some c2) :
    ∃ t req, getTask c i = some t ∧ t.phase = Phase.awaitReplay req ∧
      c2 = { c with
        tasks := setPhase c.tasks i
          (Phase.entry { req with auth := attachAuth c.accessToken req.auth }
            (ErrVal.http i status)) } := by
  simp only [step] at h
  split at h
  case h_2 => exact absurd h (by simp)
  case h_1 t heq =>
    split at h
    case h_1 req hp =>
      exact ⟨t, req, heq, hp, ((Option.some.injEq _ _).mp h).symm⟩
    all_goals exact absurd h (by simp)

lemma setPhaseF_phase (i : Nat) (p : Phase) (t : CallerTask) :
    (setPhaseF i p t).phase = if t.id == i then p else t.phase := by
  unfold setPhaseF
  split <;> rename_i hx <;> simp [hx]

lemma found_eq_of_id_eq (c : Cfg) (i j : Nat) (t tj : CallerTask)
    (hg : getTask c i = some t)
    (hfj : c.tasks.find? (fun u => u.id == j) = some tj)
    (hid : (tj.id == i) = true) : tj = t := by
  have h1 : tj.id = i := by simpa using hid
  have h2 : tj.id = j := by simpa using List.find?_some hfj
  have hij : i = j := by rw [← h1, h2]
  unfold getTask at hg
  rw [hij] at hg
  rw [hfj] at hg
  exact (Option.some.injEq _ _).mp hg

lemma mem_setPhase_cases (ts : List CallerTask) (i : Nat) (p : Phase)
    (t2 : CallerTask) (h : t2 ∈ setPhase ts i p) :
    ∃ t ∈ ts, t2 = setPhaseF i p t := by
  unfold setPhase at h
  obtain ⟨t, ht, hh⟩ := List.mem_map.mp h
  exact ⟨t, ht, hh.symm⟩

lemma mem_processQueue_cases (ts : List CallerTask) (q : List Nat)
    (o : Except ErrVal String) (t2 : CallerTask) (h : t2 ∈ processQueue ts q o) :
    ∃ t ∈ ts, t2 = processQueueF q o t := by
  unfold processQueue at h
  obtain ⟨t, ht, hh⟩ := List.mem_map.mp h
  exact ⟨t, ht, hh.symm⟩

lemma isAwaitQueue_setPhaseF (i : Nat) (p : Phase) (t : CallerTask)
    (hp : isAwaitQueue p = false)
    (h : isAwaitQueue (setPhaseF i p t).phase = true) :
    isAwaitQueue t.phase = true := by
  rw [setPhaseF_phase] at h
  split at h
  · rw [hp] at h; exact absurd h (by simp)
  · exact h

lemma isAwaitQueue_processQueueF (q : List Nat) (o : Except ErrVal String)
    (t : CallerTask) (h : isAwaitQueue (processQueueF q o t).phase = true) :
    isAwaitQueue t.phase = true ∧ q.contains t.id = false := by
  rcases t with ⟨tid, tp⟩
  cases tp <;> simp only [processQueueF] at h
  case awaitQueue r =>
      by_cases hq : q.contains tid = true
      · rw [if_pos hq] at h
        cases o <;> simp [isAwaitQueue] at h
      · refine ⟨by simp [isAwaitQueue], ?_⟩
        cases hb : q.contains tid
        · rfl
        · exact absurd hb hq
  all_goals simp [isAwaitQueue] at h

lemma contains_of_mem (l : List Nat) (a : Nat) (h : a ∈ l) :
    l.contains a = true := by
  simpa using h

lemma mem_of_contains (l : List Nat) (a : Nat) (h : l.contains a = true) :
    a ∈ l := by
  simpa using h

lemma queueEntries_setPhase (c : Cfg) (i : Nat) (p : Phase) (t : CallerTask)
    (hg : getTask c i = some t) (hAQ : isAwaitQueue t.phase = false)
    (h2 : ∀ j ∈ c.failedQueue, optIsAwaitQueue (taskPhase c j) = true)
    (j : Nat) (hj : j ∈ c.failedQueue) :
    optIsAwaitQueue (((setPhase c.tasks i p).find? (fun u => u.id == j)).map
      CallerTask.phase) = true := by
  have hold := h2 j hj
  rw [optIsAwaitQueue_iff] at hold
  obtain ⟨r, hr⟩ := hold
  unfold taskPhase getTask at hr
  cases hfj : c.tasks.find? (fun u => u.id == j) with
  | none => rw [hfj] at hr; simp at hr
  | some tj =>
      rw [hfj] at hr
      have htj : tj.phase = Phase.awaitQueue r := by simpa using hr
      have hne : ¬ tj.id = i := by
        intro hcon
        have hid : (tj.id == i) = true := by simpa using hcon
        have := found_eq_of_id_eq c i j t tj hg hfj hid
        rw [this] at htj
        rw [htj] at hAQ
        simp [isAwaitQueue] at hAQ
      rw [find?_setPhase, hfj]
      rw [optIsAwaitQueue_iff]
      refine ⟨r, ?_⟩
      simp only [Option.map_some']
      rw [setPhaseF_of_ne i p tj hne]
      simp [htj]

theorem coordInv_step (c c2 : Cfg) (e : Event) (hInv : CoordInv c)
    (h : step c e = some c2) : CoordInv c2 := by
  obtain ⟨h1, h2, h3⟩ := hInv
  cases e with
  | arrive url status =>
      have hc := step_arrive_inv c c2 url status h
      subst hc
      refine ⟨fun hr => h1 hr, ?_, ?_⟩
      · intro j hj
        have hold := h2 j hj
        rw [optIsAwaitQueue_iff] at hold ⊢
        obtain ⟨r, hr⟩ := hold
        refine ⟨r, ?_⟩
        unfold taskPhase getTask at hr ⊢
        cases hf : c.tasks.find? (fun u => u.id == j) with
        | none => rw [hf] at hr; simp at hr
        | some tj =>
            rw [hf] at hr
            rw [find?_append_left _ _ _ _ hf]
            exact hr
      · intro t ht hAQ
        simp only [List.mem_append, List.mem_singleton] at ht
        rcases ht with ht | ht
        · exact h3 t ht hAQ
        · subst ht; simp [isAwaitQueue] at hAQ
  | handle i =>
      obtain ⟨t, req, err, hg, hp, hbranch⟩ := step_handle_inv c c2 i h
      have hAQt : isAwaitQueue t.phase = false := by rw [hp]; rfl
      rcases hbranch with ⟨hi, hc⟩ | ⟨hi, hr, hc⟩ | ⟨hi, hr, hf, hc⟩ |
        ⟨hi, hr, hf, hc⟩
      · -- intercept condition false: task rejected, rest unchanged
        subst hc
        refine ⟨fun hrf => h1 hrf, ?_, ?_⟩
        · intro j hj
          exact queueEntries_setPhase c i (Phase.doneErr err) t hg hAQt h2 j hj
        · intro t2 ht2 hAQ2
          obtain ⟨t1, ht1, hh⟩ := mem_setPhase_cases c.tasks i _ t2 ht2
          subst hh
          rw [setPhaseF_id]
          exact h3 t1 ht1 (isAwaitQueue_setPhaseF i _ t1 (by rfl) hAQ2)
      · -- refresh in flight: task queued
        subst hc
        refine ⟨?_, ?_, ?_⟩
        · intro hrf; rw [hr] at hrf; exact absurd hrf (by simp)
        · intro j hj
          simp only [List.mem_append, List.mem_singleton] at hj
          rcases hj with hj | hj
          · have hold := h2 j hj
            rw [optIsAwaitQueue_iff] at hold ⊢
            obtain ⟨r, hrr⟩ := hold
            unfold taskPhase getTask at hrr ⊢
            simp only []
            cases hfj : c.tasks.find? (fun u => u.id == j) with
            | none => rw [hfj] at hrr; simp at hrr
            | some tj =>
                rw [hfj] at hrr
                have htj : tj.phase = Phase.awaitQueue r := by simpa using hrr
                rw [find?_setPhase, hfj]
                simp only [Option.map_some']
                rw [setPhaseF_phase]
                split
                · exact ⟨req, rfl⟩
                · exact ⟨r, by simp [htj]⟩
          · subst hj
            rw [optIsAwaitQueue_iff]
            refine ⟨req, ?_⟩
            unfold taskPhase getTask
            rw [find?_setPhase]
            unfold getTask at hg
            rw [hg]
            simp only [Option.map_some']
            have htid : t.id = j := by simpa using List.find?_some hg
            rw [setPhaseF_of_id _ _ t htid]
        · intro t2 ht2 hAQ2
          obtain ⟨t1, ht1, hh⟩ := mem_setPhase_cases c.tasks i _ t2 ht2
          subst hh
          rw [setPhaseF_id]
          rw [setPhaseF_phase] at hAQ2
          by_cases hx : (t1.id == i) = true
          · have hxx : t1.id = i := by simpa using hx
            apply contains_of_mem
            rw [hxx]
            simp
          · rw [if_neg hx] at hAQ2
            have hcontains := h3 t1 ht1 hAQ2
            apply contains_of_mem
            have hmem : t1.id ∈ c.failedQueue := mem_of_contains _ _ hcontains
            simp [hmem]
      · -- IDLE, refresh token falsy: immediate logout, queue (empty) untouched
        subst hc
        have hqe : c.failedQueue = [] := h1 hr
        refine ⟨fun _ => hqe, ?_, ?_⟩
        · intro j hj
          rw [hqe] at hj
          simp at hj
        · intro t2 ht2 hAQ2
          obtain ⟨t1, ht1, hh⟩ := mem_setPhase_cases c.tasks i _ t2 ht2
          subst hh
          rw [setPhaseF_id]
          exact h3 t1 ht1 (isAwaitQueue_setPhaseF i _ t1 (by rfl) hAQ2)
      · -- IDLE, refresh token present: the refresh exchange starts
        subst hc
        have hqe : c.failedQueue = [] := h1 hr
        refine ⟨?_, ?_, ?_⟩
        · intro hrf
          exact absurd hrf (by simp)
        · intro j hj
          rw [hqe] at hj
          simp at hj
        · intro t2 ht2 hAQ2
          obtain ⟨t1, ht1, hh⟩ := mem_setPhase_cases c.tasks i _ t2 ht2
          subst hh
          rw [setPhaseF_id]
          exact h3 t1 ht1 (isAwaitQueue_setPhaseF i _ t1 (by rfl) hAQ2)
  | refreshOk i tok =>
      obtain ⟨t, req, hg, hp, hc⟩ := step_refreshOk_inv c c2 i tok h
      subst hc
      refine ⟨fun _ => rfl, ?_, ?_⟩
      · intro j hj
        simp at hj
      · intro t2 ht2 hAQ2
        obtain ⟨u, hu, hh⟩ := mem_setPhase_cases _ i _ t2 ht2
        subst hh
        have hAQu := isAwaitQueue_setPhaseF i _ u (by rfl) hAQ2
        obtain ⟨t1, ht1, hh1⟩ := mem_processQueue_cases c.tasks c.failedQueue _ u hu
        subst hh1
        obtain ⟨hAQ1, hnc⟩ := isAwaitQueue_processQueueF _ _ t1 hAQu
        have hcont := h3 t1 ht1 hAQ1
        rw [hcont] at hnc
        exact absurd hnc (by simp)
  | refreshFailEv i code =>
      obtain ⟨t, req, hg, hp, hc⟩ := step_refreshFail_inv c c2 i code h
      subst hc
      refine ⟨fun _ => rfl, ?_, ?_⟩
      · intro j hj
        simp at hj
      · intro t2 ht2 hAQ2
        obtain ⟨u, hu, hh⟩ := mem_setPhase_cases _ i _ t2 ht2
        subst hh
        have hAQu := isAwaitQueue_setPhaseF i _ u (by rfl) hAQ2
        obtain ⟨t1, ht1, hh1⟩ := mem_processQueue_cases c.tasks c.failedQueue _ u hu
        subst hh1
        obtain ⟨hAQ1, hnc⟩ := isAwaitQueue_processQueueF _ _ t1 hAQu
        have hcont := h3 t1 ht1 hAQ1
        rw [hcont] at hnc
        exact absurd hnc (by simp)
  | resume i =>
      obtain ⟨t, req, tok, hg, hp, hc⟩ := step_resume_inv c c2 i h
      subst hc
      have hAQt : isAwaitQueue t.phase = false := by rw [hp]; rfl
      refine ⟨fun hrf => h1 hrf, ?_, ?_⟩
      · intro j hj
        exact queueEntries_setPhase c i _ t hg hAQt h2 j hj
      · intro t2 ht2 hAQ2
        obtain ⟨t1, ht1, hh⟩ := mem_setPhase_cases c.tasks i _ t2 ht2
        subst hh
        rw [setPhaseF_id]
        exact h3 t1 ht1 (isAwaitQueue_setPhaseF i _ t1 (by rfl) hAQ2)
  | replayOk i =>
      obtain ⟨t, req, hg, hp, hc⟩ := step_replayOk_inv c c2 i h
      subst hc
      have hAQt : isAwaitQueue t.phase = false := by rw [hp]; rfl
      refine ⟨fun hrf => h1 hrf, ?_, ?_⟩
      · intro j hj
        exact queueEntries_setPhase c i _ t hg hAQt h2 j hj
      · intro t2 ht2 hAQ2
        obtain ⟨t1, ht1, hh⟩ := mem_setPhase_cases c.tasks i _ t2 ht2
        subst hh
        rw [setPhaseF_id]
        exact h3 t1 ht1 (isAwaitQueue_setPhaseF i _ t1 (by rfl) hAQ2)
  | replayFail i status =>
      obtain ⟨t, req, hg, hp, hc⟩ := step_replayFail_inv c c2 i status h
      subst hc
      have hAQt : isAwaitQueue t.phase = false := by rw [hp]; rfl
      refine ⟨fun hrf => h1 hrf, ?_, ?_⟩
      · intro j hj
        exact queueEntries_setPhase c i _ t hg hAQt h2 j hj
      · intro t2 ht2 hAQ2
        obtain ⟨t1, ht1, hh⟩ := mem_setPhase_cases c.tasks i _ t2 ht2
        subst hh
        rw [setPhaseF_id]
        exact h3 t1 ht1 (isAwaitQueue_setPhaseF i _ t1 (by rfl) hAQ2)

lemma coordInv_initCfg (acc rt : Option String) : CoordInv (initCfg acc rt) := by
  refine ⟨fun _ => rfl, ?_, ?_⟩ <;> intro x hx <;> simp [initCfg] at hx

lemma coordInv_runEvents (c c2 : Cfg) (evs : List Event) (hInv : CoordInv c)
    (h : runEvents c evs = some c2) : CoordInv c2 := by
  induction evs generalizing c with
  | nil =>
      simp only [runEvents, Option.some.injEq] at h
      rw [← h]; exact hInv
  | cons e es ih =>
      simp only [runEvents] at h
      cases hs : step c e with
      | none => rw [hs] at h; simp at h
      | some c1 =>
          rw [hs] at h
          exact ih c1 (coordInv_step c c1 e hInv hs) h

theorem reach_coordInv (c : Cfg) (h : Reach c) : CoordInv c := by
  obtain ⟨acc, rt, evs, hr⟩ := h
  exact coordInv_runEvents _ c evs (coordInv_initCfg acc rt) hr

lemma refreshCalls_const_of_refreshing (c c2 : Cfg) (e : Event)
    (hr : c.isRefreshing = true) (h : step c e = some c2) :
    c2.refreshCalls = c.refreshCalls := by
  cases e with
  | arrive url status => rw [step_arrive_inv c c2 url status h]
  | handle i =>
      obtain ⟨t, req, err, hg, hp, hb⟩ := step_handle_inv c c2 i h
      rcases hb with ⟨_, hc⟩ | ⟨_, _, hc⟩ | ⟨_, hri, _, hc⟩ | ⟨_, hri, _, hc⟩
      · rw [hc]
      · rw [hc]
      · rw [hr] at hri; exact absurd hri (by simp)
      · rw [hr] at hri; exact absurd hri (by simp)
  | refreshOk i tok =>
      obtain ⟨t, req, hg, hp, hc⟩ := step_refreshOk_inv c c2 i tok h
      rw [hc]
  | refreshFailEv i code =>
      obtain ⟨t, req, hg, hp, hc⟩ := step_refreshFail_inv c c2 i code h
      rw [hc]
  | resume i =>
      obtain ⟨t, req, tok, hg, hp, hc⟩ := step_resume_inv c c2 i h
      rw [hc]
  | replayOk i =>
      obtain ⟨t, req, hg, hp, hc⟩ := step_replayOk_inv c c2 i h
      rw [hc]
  | replayFail i status =>
      obtain ⟨t, req, hg, hp, hc⟩ := step_replayFail_inv c c2 i status h
      rw [hc]

lemma refreshCalls_const_along (c c2 : Cfg) (evs : List Event)
    (h : runEvents c evs = some c2) (ha : refreshingAlong c evs = true) :
    c2.refreshCalls = c.refreshCalls := by
  induction evs generalizing c with
  | nil =>
      simp only [runEvents, Option.some.injEq] at h
      rw [← h]
  | cons e es ih =>
      simp only [runEvents] at h
      simp only [refreshingAlong, Bool.and_eq_true] at ha
      obtain ⟨hr, ha2⟩ := ha
      cases hs : step c e with
      | none => rw [hs] at h; simp at h
      | some c1 =>
          rw [hs] at h
          simp only [hs] at ha2
          rw [ih c1 h ha2]
          exact refreshCalls_const_of_refreshing c c1 e hr hs

lemma processQueueF_AQ_ok (q : List Nat) (tok : String) (t : CallerTask)
    (r : Req) (hp : t.phase = Phase.awaitQueue r) (hq : q.contains t.id = true) :
    processQueueF q (Except.ok tok) t =
      { t with phase := Phase.queueResolved r tok } := by
  simp only [processQueueF, hp]
  rw [if_pos hq]

lemma processQueueF_AQ_err (q : List Nat) (e : ErrVal) (t : CallerTask)
    (r : Req) (hp : t.phase = Phase.awaitQueue r) (hq : q.contains t.id = true) :
    processQueueF q (Except.error e) t = { t with phase := Phase.doneErr e } := by
  simp only [processQueueF, hp]
  rw [if_pos hq]

lemma processQueueF_of_notAQ (q : List Nat) (o : Except ErrVal String)
    (t : CallerTask) (h : isAwaitQueue t.phase = false) :
    processQueueF q o t = t := by
  unfold processQueueF
  split
  · rename_i r heq
    rw [heq] at h
    simp [isAwaitQueue] at h
  · rfl

lemma drained_ok (c c2 : Cfg) (i : Nat) (tok : String) (hInv : CoordInv c)
    (h : step c (Event.refreshOk i tok) = some c2) (j : Nat)
    (hj : j ∈ c.failedQueue) :
    ∃ r, taskPhase c j = some (Phase.awaitQueue r) ∧
      taskPhase c2 j = some (Phase.queueResolved r tok) := by
  obtain ⟨h1, h2, h3⟩ := hInv
  obtain ⟨t, req, hg, hp, hc⟩ := step_refreshOk_inv c c2 i tok h
  subst hc
  have hold := h2 j hj
  rw [optIsAwaitQueue_iff] at hold
  obtain ⟨r, hr⟩ := hold
  refine ⟨r, hr, ?_⟩
  unfold taskPhase getTask at hr ⊢
  cases hfj : c.tasks.find? (fun u => u.id == j) with
  | none => rw [hfj] at hr; simp at hr
  | some tj =>
      rw [hfj] at hr
      have htj : tj.phase = Phase.awaitQueue r := by simpa using hr
      rw [find?_setPhase, find?_processQueue, hfj]
      simp only [Option.map_some']
      have hjq : c.failedQueue.contains tj.id = true := by
        have hid : tj.id = j := by simpa using List.find?_some hfj
        rw [hid]; exact contains_of_mem _ _ hj
      rw [processQueueF_AQ_ok _ _ _ _ htj hjq]
      have hne : ¬ tj.id = i := by
        intro hcon
        have hid : (tj.id == i) = true := by simpa using hcon
        have heq := found_eq_of_id_eq c i j t tj hg hfj hid
        rw [heq, hp] at htj
        exact absurd htj (by simp)
      rw [setPhaseF_of_ne i _
        ({ id := tj.id, phase := Phase.queueResolved r tok } : CallerTask) hne]

lemma drained_err (c c2 : Cfg) (i : Nat) (code : Nat) (hInv : CoordInv c)
    (h : step c (Event.refreshFailEv i code) = some c2) (j : Nat)
    (hj : j ∈ c.failedQueue) :
    taskPhase c2 j = some (Phase.doneErr (ErrVal.refreshFail code)) := by
  obtain ⟨h1, h2, h3⟩ := hInv
  obtain ⟨t, req, hg, hp, hc⟩ := step_refreshFail_inv c c2 i code h
  subst hc
  have hold := h2 j hj
  rw [optIsAwaitQueue_iff] at hold
  obtain ⟨r, hr⟩ := hold
  unfold taskPhase getTask at hr ⊢
  cases hfj : c.tasks.find? (fun u => u.id == j) with
  | none => rw [hfj] at hr; simp at hr
  | some tj =>
      rw [hfj] at hr
      have htj : tj.phase = Phase.awaitQueue r := by simpa using hr
      rw [find?_setPhase, find?_processQueue, hfj]
      simp only [Option.map_some']
      have hjq : c.failedQueue.contains tj.id = true := by
        have hid : tj.id = j := by simpa using List.find?_some hfj
        rw [hid]; exact contains_of_mem _ _ hj
      rw [processQueueF_AQ_err _ _ _ _ htj hjq]
      have hne : ¬ tj.id = i := by
        intro hcon
        have hid : (tj.id == i) = true := by simpa using hcon
        have heq := found_eq_of_id_eq c i j t tj hg hfj hid
        rw [heq, hp] at htj
        exact absurd htj (by simp)
      rw [setPhaseF_of_ne i _
        ({ id := tj.id,
           phase := Phase.doneErr (ErrVal.refreshFail code) } : CallerTask) hne]

lemma trigger_after_ok (c c2 : Cfg) (i : Nat) (tok : String)
    (h : step c (Event.refreshOk i tok) = some c2) :
    ∃ req : Req, taskPhase c2 i =
      some (Phase.awaitReplay { req with auth := some ("Bearer " ++ tok) }) := by
  obtain ⟨t, req, hg, hp, hc⟩ := step_refreshOk_inv c c2 i tok h
  subst hc
  refine ⟨req, ?_⟩
  unfold taskPhase getTask
  unfold getTask at hg
  rw [find?_setPhase, find?_processQueue, hg]
  simp only [Option.map_some']
  rw [processQueueF_of_notAQ _ _ t (by rw [hp]; rfl)]
  have htid : t.id = i := by simpa using List.find?_some hg
  rw [setPhaseF_of_id _ _ t htid]

lemma trigger_after_err (c c2 : Cfg) (i : Nat) (code : Nat)
    (h : step c (Event.refreshFailEv i code) = some c2) :
    taskPhase c2 i = some (Phase.doneErr (ErrVal.refreshFail code)) := by
  obtain ⟨t, req, hg, hp, hc⟩ := step_refreshFail_inv c c2 i code h
  subst hc
  unfold taskPhase getTask
  unfold getTask at hg
  rw [find?_setPhase, find?_processQueue, hg]
  simp only [Option.map_some']
  rw [processQueueF_of_notAQ _ _ t (by rw [hp]; rfl)]
  have htid : t.id = i := by simpa using List.find?_some hg
  rw [setPhaseF_of_id _ _ t htid]

lemma noAQ_after_ok (c c2 : Cfg) (i : Nat) (tok : String) (hInv : CoordInv c)
    (h : step c (Event.refreshOk i tok) = some c2) :
    ∀ t ∈ c2.tasks, isAwaitQueue t.phase = false := by
  have hInv2 := coordInv_step c c2 (Event.refreshOk i tok) hInv h
  obtain ⟨t, req, hg, hp, hc⟩ := step_refreshOk_inv c c2 i tok h
  intro t2 ht2
  cases hb : isAwaitQueue t2.phase with
  | false => rfl
  | true =>
      have := hInv2.2.2 t2 ht2 hb
      rw [hc] at this
      simp at this

lemma noAQ_after_err (c c2 : Cfg) (i : Nat) (code : Nat) (hInv : CoordInv c)
    (h : step c (Event.refreshFailEv i code) = some c2) :
    ∀ t ∈ c2.tasks, isAwaitQueue t.phase = false := by
  have hInv2 := coordInv_step c c2 (Event.refreshFailEv i code) hInv h
  obtain ⟨t, req, hg, hp, hc⟩ := step_refreshFail_inv c c2 i code h
  intro t2 ht2
  cases hb : isAwaitQueue t2.phase with
  | false => rfl
  | true =>
      have := hInv2.2.2 t2 ht2 hb
      rw [hc] at this
      simp at this

lemma taskPhase_some_getTask (c : Cfg) (i : Nat) (p : Phase)
    (hph : taskPhase c i = some p) :
    ∃ t, getTask c i = some t ∧ t.phase = p := by
  unfold taskPhase at hph
  cases hg : getTask c i with
  | none => rw [hg] at hph; simp at hph
  | some t =>
      rw [hg] at hph
      exact ⟨t, rfl, by simpa using hph⟩

lemma taskPhase_after_setPhase_self (c : Cfg) (i : Nat) (p : Phase)
    (t : CallerTask) (hg : getTask c i = some t) :
    ((setPhase c.tasks i p).find? (fun u => u.id == i)).map CallerTask.phase =
      some p := by
  unfold getTask at hg
  rw [find?_setPhase, hg]
  simp only [Option.map_some']
  have htid : t.id = i := by simpa using List.find?_some hg
  rw [setPhaseF_of_id _ _ t htid]

lemma handle_pass_desc (c c2 : Cfg) (i : Nat) (req : Req) (err : ErrVal)
    (hph : taskPhase c i = some (Phase.entry req err))
    (hi : intercepts (errStatus err) req = false)
    (h : step c (Event.handle i) = some c2) :
    c2 = { c with tasks := setPhase c.tasks i (Phase.doneErr err) } ∧
    taskPhase c2 i = some (Phase.doneErr err) := by
  obtain ⟨t, hg, hp⟩ := taskPhase_some_getTask c i _ hph
  obtain ⟨t2, req2, err2, hg2, hp2, hb⟩ := step_handle_inv c c2 i h
  rw [hg] at hg2
  have ht : t = t2 := (Option.some.injEq _ _).mp hg2
  subst ht
  rw [hp] at hp2
  injection hp2 with hreq herr
  subst hreq; subst herr
  rcases hb with ⟨hi2, hc⟩ | ⟨hi2, _, hc⟩ | ⟨hi2, _, _, hc⟩ | ⟨hi2, _, _, hc⟩
  · subst hc
    exact ⟨rfl, taskPhase_after_setPhase_self c i _ t hg⟩
  all_goals (rw [hi] at hi2; exact absurd hi2 (by simp))

lemma handle_queue_desc (c c2 : Cfg) (i : Nat) (req : Req) (err : ErrVal)
    (hph : taskPhase c i = some (Phase.entry req err))
    (hi : intercepts (errStatus err) req = true)
    (hr : c.isRefreshing = true)
    (h : step c (Event.handle i) = some c2) :
    c2 = { c with tasks := setPhase c.tasks i (Phase.awaitQueue req),
                  failedQueue := c.failedQueue ++ [i] } ∧
    taskPhase c2 i = some (Phase.awaitQueue req) := by
  obtain ⟨t, hg, hp⟩ := taskPhase_some_getTask c i _ hph
  obtain ⟨t2, req2, err2, hg2, hp2, hb⟩ := step_handle_inv c c2 i h
  rw [hg] at hg2
  have ht : t = t2 := (Option.some.injEq _ _).mp hg2
  subst ht
  rw [hp] at hp2
  injection hp2 with hreq herr
  subst hreq; subst herr
  rcases hb with ⟨hi2, hc⟩ | ⟨hi2, hr2, hc⟩ | ⟨hi2, hr2, _, hc⟩ | ⟨hi2, hr2, _, hc⟩
  · rw [hi] at hi2; exact absurd hi2 (by simp)
  · subst hc
    exact ⟨rfl, taskPhase_after_setPhase_self c i _ t hg⟩
  all_goals (rw [hr] at hr2; exact absurd hr2 (by simp))

lemma handle_logout_desc (c c2 : Cfg) (i : Nat) (req : Req) (err : ErrVal)
    (hph : taskPhase c i = some (Phase.entry req err))
    (hi : intercepts (errStatus err) req = true)
    (hr : c.isRefreshing = false)
    (hf : jsFalsyStr c.refreshToken = true)
    (h : step c (Event.handle i) = some c2) :
    c2 = { c with tasks := setPhase c.tasks i (Phase.doneErr err),
                  accessToken := none, refreshToken := none,
                  logoutCount := c.logoutCount + 1 } ∧
    taskPhase c2 i = some (Phase.doneErr err) := by
  obtain ⟨t, hg, hp⟩ := taskPhase_some_getTask c i _ hph
  obtain ⟨t2, req2, err2, hg2, hp2, hb⟩ := step_handle_inv c c2 i h
  rw [hg] at hg2
  have ht : t = t2 := (Option.some.injEq _ _).mp hg2
  subst ht
  rw [hp] at hp2
  injection hp2 with hreq herr
  subst hreq; subst herr
  rcases hb with ⟨hi2, hc⟩ | ⟨hi2, hr2, hc⟩ | ⟨hi2, hr2, hf2, hc⟩ |
    ⟨hi2, hr2, hf2, hc⟩
  · rw [hi] at hi2; exact absurd hi2 (by simp)
  · rw [hr] at hr2; exact absurd hr2 (by simp)
  · subst hc
    exact ⟨rfl, taskPhase_after_setPhase_self c i _ t hg⟩
  · rw [hf] at hf2; exact absurd hf2 (by simp)

lemma handle_trigger_desc (c c2 : Cfg) (i : Nat) (req : Req) (err : ErrVal)
    (hph : taskPhase c i = some (Phase.entry req err))
    (hi : intercepts (errStatus err) req = true)
    (hr : c.isRefreshing = false)
    (hf : jsFalsyStr c.refreshToken = false)
    (h : step c (Event.handle i) = some c2) :
    c2 = { c with tasks := setPhase c.tasks i
                    (Phase.awaitRefresh { req with retried := true }),
                  isRefreshing := true,
                  refreshCalls := c.refreshCalls + 1 } ∧
    taskPhase c2 i = some (Phase.awaitRefresh { req with retried := true }) := by
  obtain ⟨t, hg, hp⟩ := taskPhase_some_getTask c i _ hph
  obtain ⟨t2, req2, err2, hg2, hp2, hb⟩ := step_handle_inv c c2 i h
  rw [hg] at hg2
  have ht : t = t2 := (Option.some.injEq _ _).mp hg2
  subst ht
  rw [hp] at hp2
  injection hp2 with hreq herr
  subst hreq; subst herr
  rcases hb with ⟨hi2, hc⟩ | ⟨hi2, hr2, hc⟩ | ⟨hi2, hr2, hf2, hc⟩ |
    ⟨hi2, hr2, hf2, hc⟩
  · rw [hi] at hi2; exact absurd hi2 (by simp)
  · rw [hr] at hr2; exact absurd hr2 (by simp)
  · rw [hf] at hf2; exact absurd hf2 (by simp)
  · subst hc
    exact ⟨rfl, taskPhase_after_setPhase_self c i _ t hg⟩

lemma step_handle_trigger_fwd (c : Cfg) (i : Nat) (t : CallerTask) (req : Req)
    (err : ErrVal) (hg : getTask c i = some t)
    (hp : t.phase = Phase.entry req err)
    (hi : intercepts (errStatus err) req = true)
    (hr : c.isRefreshing = false)
    (hf : jsFalsyStr c.refreshToken = false) :
    step c (Event.handle i) = some { c with
      tasks := setPhase c.tasks i
        (Phase.awaitRefresh { req with retried := true }),
      isRefreshing := true,
      refreshCalls := c.refreshCalls + 1 } := by
  simp [step, hg, hp, hi, hr, hf]

lemma step_handle_logout_fwd (c : Cfg) (i : Nat) (t : CallerTask) (req : Req)
    (err : ErrVal) (hg : getTask c i = some t)
    (hp : t.phase = Phase.entry req err)
    (hi : intercepts (errStatus err) req = true)
    (hr : c.isRefreshing = false)
    (hf : jsFalsyStr c.refreshToken = true) :
    step c (Event.handle i) = some { c with
      tasks := setPhase c.tasks i (Phase.doneErr err),
      accessToken := none, refreshToken := none,
      logoutCount := c.logoutCount + 1 } := by
  simp [step, hg, hp, hi, hr, hf]

lemma step_resume_fwd (c : Cfg) (j : Nat) (t : CallerTask) (req : Req)
    (tok : String) (hg : getTask c j = some t)
    (hp : t.phase = Phase.queueResolved req tok) :
    step c (Event.resume j) =
      some { c with
        tasks := setPhase c.tasks j
          (Phase.awaitReplay { req with auth := some ("Bearer " ++ tok) }) } := by
  simp [step, hg, hp]

lemma processQueueF_notMem (q : List Nat) (o : Except ErrVal String)
    (t : CallerTask) (h : q.contains t.id = false) :
    processQueueF q o t = t := by
  unfold processQueueF
  split
  · rw [h]
    simp
  · rfl

lemma entry_preserved_refreshFail (c c2 : Cfg) (i code j : Nat) (req : Req)
    (err : ErrVal) (h : step c (Event.refreshFailEv i code) = some c2)
    (he : taskPhase c2 j = some (Phase.entry req err)) :
    taskPhase c j = some (Phase.entry req err) := by
  obtain ⟨t, req0, hg, hp, hc⟩ := step_refreshFail_inv c c2 i code h
  subst hc
  unfold taskPhase getTask at he ⊢
  rw [find?_setPhase, find?_processQueue] at he
  cases hfj : c.tasks.find? (fun u => u.id == j) with
  | none => rw [hfj] at he; simp at he
  | some tj =>
      rw [hfj] at he
      simp only [Option.map_some'] at he
      rw [setPhaseF_phase] at he
      split at he
      · simp at he
      · cases hAQ : isAwaitQueue tj.phase with
        | false =>
            rw [processQueueF_of_notAQ _ _ tj hAQ] at he
            simpa using he
        | true =>
            rw [isAwaitQueue_iff] at hAQ
            obtain ⟨r, hrr⟩ := hAQ
            cases hct : c.failedQueue.contains tj.id with
            | false =>
                rw [processQueueF_notMem _ _ tj hct] at he
                rw [hrr] at he
                simp at he
            | true =>
                rw [processQueueF_AQ_err _ _ _ _ hrr hct] at he
                simp at he


lemma stringify_obj_ne (fs : List (String × Json)) :
    stringify (Json.obj fs) ≠ "" := by
  intro hcon
  have hlen := congrArg String.length hcon
  rw [stringify] at hlen
  simp [String.length_append] at hlen
  exact absurd hlen.2 (by decide)

lemma isObjType_jsTruthy (data : Json) (h : isObjType data = true) :
    jsTruthy data = true := by
  cases data <;> simp [isObjType, jsTruthy] at h ⊢

/-- C9 counterexample: the access token `some ""` is present in the
Credential Store, yet the Request Authenticator returns the descriptor
unchanged and attaches no Authorization header — the source's `if (token)`
treats the empty string as absent. -/
theorem c9_counterexample :
    requestInterceptor (some ("")) sampleReqConfig = sampleReqConfig ∧
    (requestInterceptor (some ("")) sampleReqConfig).authorization = none ∧
    some ("") ≠ (none : Option String) := by
  exact ⟨rfl, rfl, by simp⟩

/-- C9 amended: applied to any outgoing request descriptor, the Request
Authenticator returns the descriptor with `Authorization: Bearer <token>`
set when a non-empty access token is present in the Credential Store,
returns it unchanged when the stored token is absent or the empty string
(JavaScript truthiness of `if (token)`), and modifies no field other than
the Authorization header; it is a total function — pure, synchronous, no
failure mode. -/
theorem c9_request_authenticator (cfg : ReqConfig) :
    (∀ t : String, t ≠ "" →
      requestInterceptor (some t) cfg =
        { cfg with authorization := some ("Bearer " ++ t) }) ∧
    requestInterceptor (some ("")) cfg = cfg ∧
    requestInterceptor none cfg = cfg ∧
    (∀ tok : Option String,
      (requestInterceptor tok cfg).url = cfg.url ∧
      (requestInterceptor tok cfg).method = cfg.method ∧
      (requestInterceptor tok cfg).body = cfg.body ∧
      (requestInterceptor tok cfg).otherHeaders = cfg.otherHeaders) := by
  refine ⟨?_, rfl, rfl, ?_⟩
  · intro t ht
    simp [requestInterceptor, ht]
  · intro tok
    cases tok with
    | none => exact ⟨rfl, rfl, rfl, rfl⟩
    | some t =>
        simp only [requestInterceptor]
        split <;> exact ⟨rfl, rfl, rfl, rfl⟩

/-- C9 witness: a non-empty token is attached as a Bearer header. -/
theorem c9_request_authenticator_witness :
    requestInterceptor (some ("T2")) sampleReqConfig =
      { sampleReqConfig with authorization := some ("Bearer T2") } :=
  (c9_request_authenticator sampleReqConfig).1 ("T2") (by decide)

/-- C7: the response interceptor intercepts exactly the failures carrying a
401 response status on a request that is neither already marked retried nor
aimed at the refresh endpoint; every other failure (no response, non-401
status, refresh-endpoint URL, already-retried request) passes through: the
task is rejected with the very same error and every piece of coordinator
state — queue, flag, tokens, default header, logout count, refresh count —
is untouched; and a rejection of the refresh exchange itself is not routed
through the handler: it starts no new exchange and creates no new handler
entry, so the refresh flow never recurses. -/
theorem c7_interception_scope :
    (∀ (status : Option Nat) (req : Req),
      intercepts status req = true ↔
        (status = some 401 ∧ req.retried = false ∧
         urlEndsWith req.url REFRESH_TOKEN_ENDPOINT = false)) ∧
    (∀ (c c2 : Cfg) (i : Nat) (req : Req) (err : ErrVal),
      taskPhase c i = some (Phase.entry req err) →
      intercepts (errStatus err) req = false →
      step c (Event.handle i) = some c2 →
      taskPhase c2 i = some (Phase.doneErr err) ∧
      c2.failedQueue = c.failedQueue ∧
      c2.isRefreshing = c.isRefreshing ∧
      c2.accessToken = c.accessToken ∧
      c2.refreshToken = c.refreshToken ∧
      c2.defaultAuth = c.defaultAuth ∧
      c2.logoutCount = c.logoutCount ∧
      c2.refreshCalls = c.refreshCalls) ∧
    (∀ (c c2 : Cfg) (i code : Nat),
      step c (Event.refreshFailEv i code) = some c2 →
      c2.refreshCalls = c.refreshCalls ∧
      (∀ (j : Nat) (req : Req) (err : ErrVal),
        taskPhase c2 j = some (Phase.entry req err) →
        taskPhase c j = some (Phase.entry req err))) := by
  refine ⟨?_, ?_, ?_⟩
  · intro status req
    constructor
    · intro h
      simp only [intercepts, Bool.and_eq_true, beq_iff_eq,
        Bool.not_eq_true'] at h
      obtain ⟨⟨h1, h2⟩, h3⟩ := h
      exact ⟨h1, h2, h3⟩
    · rintro ⟨h1, h2, h3⟩
      simp [intercepts, h1, h2, h3]
  · intro c c2 i req err hph hi h
    obtain ⟨hc, hph2⟩ := handle_pass_desc c c2 i req err hph hi h
    subst hc
    exact ⟨hph2, rfl, rfl, rfl, rfl, rfl, rfl, rfl⟩
  · intro c c2 i code h
    obtain ⟨t, req, hg, hp, hc⟩ := step_refreshFail_inv c c2 i code h
    constructor
    · rw [hc]
    · intro j req2 err2 he
      exact entry_preserved_refreshFail c c2 i code j req2 err2 h he

/-- C7 witness: a 500-status failure is returned unchanged, with no refresh
attempted and no logout. -/
theorem c7_interception_scope_witness :
    taskPhase cfg500After 0 = some (Phase.doneErr (ErrVal.http 0 (some 500))) ∧
    cfg500After.refreshCalls = cfg500.refreshCalls ∧
    cfg500After.logoutCount = cfg500.logoutCount ∧
    intercepts (some 500)
      { url := "/api/solo/session-logs/", auth := some ("Bearer A1"),
        retried := false } = false := by
  have h := c7_interception_scope.2.1 cfg500 cfg500After 0
    { url := "/api/solo/session-logs/", auth := some ("Bearer A1"),
      retried := false }
    (ErrVal.http 0 (some 500)) rfl (by decide) rfl
  exact ⟨h.1, h.2.2.2.2.2.2.2, h.2.2.2.2.2.2.1, by decide⟩

/-- C8 counterexample: for the response body `\x7b"foo":"bar"\x7d` (no
detail field) with status 500, the claimed uniform rule — detail, else JSON
rendering of the body, else generic — yields the JSON rendering, and
`logSession` indeed produces it, but `getLoggedSessions` produces the
generic `API Error: 500` instead (its fallback is the body's `message`
field, not a JSON rendering): the normalization rules are not uniform
across the API methods. -/
theorem c8_counterexample :
    (getLoggedSessionsErr (AxiosFailure.response dataFooBar 500)).message =
      "API Error: 500" ∧
    uniformSpecMessage dataFooBar 500 = "\x7b\"foo\":\"bar\"\x7d" ∧
    (logSessionErr (AxiosFailure.response dataFooBar 500)).message =
      "\x7b\"foo\":\"bar\"\x7d" ∧
    ("API Error: 500" : String) ≠ "\x7b\"foo\":\"bar\"\x7d" := by
  refine ⟨rfl, rfl, rfl, by decide⟩

/-- C8 amended: every method yields a normalized error: on a server
response, `data` and `status` are copied verbatim and the message is the
truthy `detail` field when present under both methods; but the fallback
differs per method — `logSession` uses a JSON rendering of the body exactly
when the body is a (non-null) object and the generic `API Error: <status>`
otherwise, while `getLoggedSessions` uses the body's truthy `message` field
when present and the generic string otherwise. A transport failure with no
response yields the generic network-unreachable message and a setup failure
the generic request-setup message, identically in both methods. -/
theorem c8_normalization (data : Json) (status : Nat) :
    ((logSessionErr (AxiosFailure.response data status)).data = some data ∧
     (logSessionErr (AxiosFailure.response data status)).status =
       some status ∧
     (getLoggedSessionsErr (AxiosFailure.response data status)).data =
       some data ∧
     (getLoggedSessionsErr (AxiosFailure.response data status)).status =
       some status) ∧
    (∀ d, (data.getField ("detail")).filter jsTruthy = some d →
      (logSessionErr (AxiosFailure.response data status)).message =
        jsToString d ∧
      (getLoggedSessionsErr (AxiosFailure.response data status)).message =
        jsToString d) ∧
    ((data.getField ("detail")).filter jsTruthy = none →
      ((isObjType data = true →
        (logSessionErr (AxiosFailure.response data status)).message =
          stringify data) ∧
       (isObjType data = false →
        (logSessionErr (AxiosFailure.response data status)).message =
          "API Error: " ++ toString status) ∧
       (∀ m, (data.getField ("message")).filter jsTruthy = some m →
        (getLoggedSessionsErr (AxiosFailure.response data status)).message =
          jsToString m) ∧
       ((data.getField ("message")).filter jsTruthy = none →
        (getLoggedSessionsErr (AxiosFailure.response data status)).message =
          "API Error: " ++ toString status))) ∧
    (logSessionErr AxiosFailure.request =
       getLoggedSessionsErr AxiosFailure.request ∧
     (logSessionErr AxiosFailure.request).message =
       "Network Error: Could not connect to server." ∧
     (logSessionErr AxiosFailure.setup).message = "Request setup error." ∧
     logSessionErr AxiosFailure.setup = getLoggedSessionsErr
       AxiosFailure.setup) := by
  refine ⟨⟨rfl, rfl, rfl, rfl⟩, ?_, ?_, ⟨rfl, rfl, rfl, rfl⟩⟩
  · intro d hd
    constructor
    · simp [logSessionErr, hd]
    · simp [getLoggedSessionsErr, hd]
  · intro hd
    refine ⟨?_, ?_, ?_, ?_⟩
    · intro hobj
      cases data with
      | obj fs =>
          have hne : (stringify (Json.obj fs) != "") = true := by
            simpa using stringify_obj_ne fs
          simp [logSessionErr, hd, jsTruthy, isObjType, hne]
      | null => simp [isObjType] at hobj
      | bool b => simp [isObjType] at hobj
      | num n => simp [isObjType] at hobj
      | str s => simp [isObjType] at hobj
    · intro hobj
      simp [logSessionErr, hd, hobj]
    · intro m hm
      simp [getLoggedSessionsErr, hd, hm]
    · intro hm
      simp [getLoggedSessionsErr, hd, hm]

/-- C8 witness: the detail rule, the message-field fallback and the JSON
rendering fallback, each at a concrete payload. -/
theorem c8_normalization_witness :
    (logSessionErr (AxiosFailure.response dataDetail 401)).message =
      "Denied" ∧
    (getLoggedSessionsErr (AxiosFailure.response dataDetail 401)).message =
      "Denied" ∧
    (getLoggedSessionsErr (AxiosFailure.response dataMsg 500)).message =
      "boom" ∧
    (logSessionErr (AxiosFailure.response dataFooBar 502)).message =
      "\x7b\"foo\":\"bar\"\x7d" := by
  have h1 := (c8_normalization dataDetail 401).2.1 (Json.str ("Denied")) rfl
  have h2 := (c8_normalization dataMsg 500).2.2.1 rfl
  have h3 := (c8_normalization dataFooBar 502).2.2.1 rfl
  exact ⟨h1.1, h1.2, h2.2.2.1 (Json.str ("boom")) rfl, (h3.1 rfl).trans rfl⟩

/-- C2 counterexample: an execution in which queued request 1 is replayed
twice. Request 0's 401 starts a refresh; request 1's 401 is queued; the
refresh succeeds with T2 and request 1 is replayed with its `_retry` marker
STILL UNSET (the queue path never sets it — only the refresh-triggering
path does); that replay fails 401 again, is intercepted again, triggers a
second refresh exchange (refreshCalls reaches 2), and request 1 is replayed
a second time. So the marker is not set on the first retry attempt of every
replayed request, and a single original call can be retried more than
once. -/
theorem c2_counterexample :
    runEvents (initCfg (some ("A1")) (some ("R1"))) evsQueuedReplay =
      some cfgQueuedReplay ∧
    taskPhase cfgQueuedReplay 1 = some (Phase.awaitReplay
      { url := "/api/solo/session-logs/", auth := some ("Bearer T2"),
        retried := false }) ∧
    runEvents cfgQueuedReplay evsSecondRetry = some cfgSecondRetry ∧
    taskPhase cfgSecondRetry 1 = some (Phase.awaitReplay
      { url := "/api/solo/session-logs/", auth := some ("Bearer T3"),
        retried := true }) ∧
    cfgQueuedReplay.refreshCalls = 1 ∧
    cfgSecondRetry.refreshCalls = 2 := by
  exact ⟨rfl, rfl, rfl, rfl, rfl, rfl⟩

/-- C2 amended: a request whose `_retry` marker is already set is not
intercepted on a further 401 — the second failure propagates to the caller
with all coordinator state untouched. The marker is set only on the request
that triggers a refresh exchange; a request queued while a refresh is in
flight keeps its request object unchanged (marker unset), so only the
triggering request is capped at one retry, and a queued request replayed
from the queue can be intercepted and retried again. -/
theorem c2_retry_marker :
    (∀ (c c2 : Cfg) (i : Nat) (req : Req) (err : ErrVal),
      taskPhase c i = some (Phase.entry req err) →
      req.retried = true →
      step c (Event.handle i) = some c2 →
      taskPhase c2 i = some (Phase.doneErr err) ∧
      c2.refreshCalls = c.refreshCalls ∧
      c2.failedQueue = c.failedQueue) ∧
    (∀ (c c2 : Cfg) (i : Nat) (req : Req) (err : ErrVal),
      taskPhase c i = some (Phase.entry req err) →
      intercepts (errStatus err) req = true →
      c.isRefreshing = false →
      jsFalsyStr c.refreshToken = false →
      step c (Event.handle i) = some c2 →
      taskPhase c2 i =
        some (Phase.awaitRefresh { req with retried := true })) ∧
    (∀ (c c2 : Cfg) (i : Nat) (req : Req) (err : ErrVal),
      taskPhase c i = some (Phase.entry req err) →
      intercepts (errStatus err) req = true →
      c.isRefreshing = true →
      step c (Event.handle i) = some c2 →
      taskPhase c2 i = some (Phase.awaitQueue req)) := by
  refine ⟨?_, ?_, ?_⟩
  · intro c c2 i req err hph hret h
    have hi : intercepts (errStatus err) req = false := by
      simp [intercepts, hret]
    obtain ⟨hc, hph2⟩ := handle_pass_desc c c2 i req err hph hi h
    subst hc
    exact ⟨hph2, rfl, rfl⟩
  · intro c c2 i req err hph hi hr hf h
    exact (handle_trigger_desc c c2 i req err hph hi hr hf h).2
  · intro c c2 i req err hph hi hr h
    exact (handle_queue_desc c c2 i req err hph hi hr h).2

/-- C2 witness: a marked request whose 401 recurs is rejected untouched. -/
theorem c2_retry_marker_witness :
    taskPhase cfgRetriedAfter 0 =
      some (Phase.doneErr (ErrVal.http 0 (some 401))) ∧
    cfgRetriedAfter.refreshCalls = cfgRetried.refreshCalls ∧
    cfgRetriedAfter.failedQueue = cfgRetried.failedQueue := by
  exact c2_retry_marker.1 cfgRetried cfgRetriedAfter 0
    { url := "/api/solo/assigned-routines/", auth := some ("Bearer T2"),
      retried := true }
    (ErrVal.http 0 (some 401)) rfl rfl rfl

/-- C6: the coordinator is never left stuck in REFRESHING. Every exit path
of a refresh attempt — exchange success, exchange rejection (which includes
any error thrown during the exchange, since the `catch`/`finally` wrap the
whole `try` block), and the immediate-logout path for a missing refresh
token — leaves `isRefreshing = false`; consequently, in the resulting state
a later eligible authentication failure can always start a new refresh
exchange. -/
theorem c6_refresh_concludes_idle :
    (∀ (c c2 : Cfg) (i : Nat) (tok : String),
      step c (Event.refreshOk i tok) = some c2 → c2.isRefreshing = false) ∧
    (∀ (c c2 : Cfg) (i code : Nat),
      step c (Event.refreshFailEv i code) = some c2 →
      c2.isRefreshing = false) ∧
    (∀ (c c2 : Cfg) (i : Nat) (req : Req) (err : ErrVal),
      taskPhase c i = some (Phase.entry req err) →
      intercepts (errStatus err) req = true →
      c.isRefreshing = false →
      jsFalsyStr c.refreshToken = true →
      step c (Event.handle i) = some c2 → c2.isRefreshing = false) ∧
    (∀ c2 : Cfg, c2.isRefreshing = false →
      ∀ (i : Nat) (req : Req) (err : ErrVal),
        taskPhase c2 i = some (Phase.entry req err) →
        intercepts (errStatus err) req = true →
        jsFalsyStr c2.refreshToken = false →
        ∃ c3, step c2 (Event.handle i) = some c3 ∧
          c3.refreshCalls = c2.refreshCalls + 1 ∧
          c3.isRefreshing = true) := by
  refine ⟨?_, ?_, ?_, ?_⟩
  · intro c c2 i tok h
    obtain ⟨t, req, hg, hp, hc⟩ := step_refreshOk_inv c c2 i tok h
    rw [hc]
  · intro c c2 i code h
    obtain ⟨t, req, hg, hp, hc⟩ := step_refreshFail_inv c c2 i code h
    rw [hc]
  · intro c c2 i req err hph hi hr hf h
    obtain ⟨hc, _⟩ := handle_logout_desc c c2 i req err hph hi hr hf h
    subst hc
    exact hr
  · intro c2 hidle i req err hph hi hf
    obtain ⟨t, hg, hp⟩ := taskPhase_some_getTask c2 i _ hph
    exact ⟨_, step_handle_trigger_fwd c2 i t req err hg hp hi hidle hf,
      rfl, rfl⟩

/-- C6 witness: after a failed refresh and after a missing-token logout, the
flag is down. -/
theorem c6_refresh_concludes_idle_witness :
    cfgFailAfter.isRefreshing = false ∧
    cfgNoTokAfter.isRefreshing = false := by
  constructor
  · exact c6_refresh_concludes_idle.2.1 cfgRefreshing cfgFailAfter 0 7 rfl
  · exact c6_refresh_concludes_idle.2.2.1 cfgNoRefreshTok cfgNoTokAfter 0
      { url := "/api/solo/session-logs/", auth := some ("Bearer A1"),
        retried := false }
      (ErrVal.http 0 (some 401)) rfl (by decide) rfl rfl rfl

/-- C10: in every reachable configuration the pending queue is empty
whenever `isRefreshing` is down; in particular, whenever a handler run takes
the missing-refresh-token branch (eligible 401, coordinator idle, falsy
refresh token) the queue is empty at that moment — the flag is raised
synchronously inside the same event-loop block, so no concurrent caller can
have been enqueued — and it is still empty afterwards, so the absence of a
queue drain in that branch strands no pending request. -/
theorem c10_missing_token_queue_empty (c : Cfg) (hre : Reach c) :
    (c.isRefreshing = false → c.failedQueue = []) ∧
    (∀ (i : Nat) (req : Req) (err : ErrVal),
      taskPhase c i = some (Phase.entry req err) →
      intercepts (errStatus err) req = true →
      c.isRefreshing = false →
      jsFalsyStr c.refreshToken = true →
      c.failedQueue = [] ∧
      (∀ c2, step c (Event.handle i) = some c2 → c2.failedQueue = [])) := by
  have hInv := reach_coordInv c hre
  refine ⟨hInv.1, ?_⟩
  intro i req err hph hi hr hf
  refine ⟨hInv.1 hr, ?_⟩
  intro c2 h
  obtain ⟨hc, _⟩ := handle_logout_desc c c2 i req err hph hi hr hf h
  subst hc
  exact hInv.1 hr

/-- C10 witness: the missing-token branch at a concrete reachable state. -/
theorem c10_missing_token_queue_empty_witness :
    cfgNoRefreshTok.failedQueue = [] ∧ cfgNoTokAfter.failedQueue = [] := by
  have h := (c10_missing_token_queue_empty cfgNoRefreshTok
    ⟨some ("A1"), none,
     [Event.arrive ("/api/solo/session-logs/") (some 401)], rfl⟩).2
    0 { url := "/api/solo/session-logs/", auth := some ("Bearer A1"),
        retried := false }
    (ErrVal.http 0 (some 401)) rfl (by decide) rfl rfl
  exact ⟨h.1, h.2 cfgNoTokAfter rfl⟩

/-- C3: on an unrecoverable refresh. When the refresh exchange rejects,
every queued PendingRequest is rejected with the refresh error, both tokens
are cleared from the store, the logout side effect fires exactly once (the
logout counter rises by exactly one however many requests were queued), the
triggering request is rejected with the refresh error, and the coordinator
returns to IDLE with an empty queue. When the store holds no (truthy)
refresh token, the same logout happens immediately with no network I/O (the
refresh-exchange counter is unchanged): the queue — provably empty on this
branch — is untouched, both tokens are cleared, logout fires once, the
triggering request is rejected (with its original 401 error, the only error
in play since no exchange was attempted), and the coordinator is IDLE. -/
theorem c3_unrecoverable_refresh (c : Cfg) (hre : Reach c) :
    (∀ (i code : Nat) (c2 : Cfg),
      step c (Event.refreshFailEv i code) = some c2 →
      (∀ j ∈ c.failedQueue,
        taskPhase c2 j = some (Phase.doneErr (ErrVal.refreshFail code))) ∧
      c2.accessToken = none ∧ c2.refreshToken = none ∧
      c2.logoutCount = c.logoutCount + 1 ∧
      taskPhase c2 i = some (Phase.doneErr (ErrVal.refreshFail code)) ∧
      c2.isRefreshing = false ∧ c2.failedQueue = []) ∧
    (∀ (i : Nat) (req : Req) (err : ErrVal),
      taskPhase c i = some (Phase.entry req err) →
      intercepts (errStatus err) req = true →
      c.isRefreshing = false →
      jsFalsyStr c.refreshToken = true →
      c.failedQueue = [] ∧
      ∃ c2, step c (Event.handle i) = some c2 ∧
        c2.accessToken = none ∧ c2.refreshToken = none ∧
        c2.logoutCount = c.logoutCount + 1 ∧
        taskPhase c2 i = some (Phase.doneErr err) ∧
        c2.isRefreshing = false ∧
        c2.refreshCalls = c.refreshCalls ∧ c2.failedQueue = []) := by
  have hInv := reach_coordInv c hre
  refine ⟨?_, ?_⟩
  · intro i code c2 h
    obtain ⟨t, req, hg, hp, hc⟩ := step_refreshFail_inv c c2 i code h
    refine ⟨fun j hj => drained_err c c2 i code hInv h j hj,
      by rw [hc], by rw [hc], by rw [hc],
      trigger_after_err c c2 i code h, by rw [hc], by rw [hc]⟩
  · intro i req err hph hi hr hf
    refine ⟨hInv.1 hr, ?_⟩
    obtain ⟨t, hg, hp⟩ := taskPhase_some_getTask c i _ hph
    refine ⟨_, step_handle_logout_fwd c i t req err hg hp hi hr hf,
      rfl, rfl, rfl, ?_, hr, rfl, hInv.1 hr⟩
    exact taskPhase_after_setPhase_self c i _ t hg

/-- C3 witness: refresh failure with one queued request, and the
missing-token branch, at concrete reachable states. -/
theorem c3_unrecoverable_refresh_witness :
    taskPhase cfgFailAfter 1 = some (Phase.doneErr (ErrVal.refreshFail 7)) ∧
    cfgFailAfter.accessToken = none ∧
    cfgFailAfter.refreshToken = none ∧
    cfgFailAfter.logoutCount = 1 ∧
    taskPhase cfgFailAfter 0 = some (Phase.doneErr (ErrVal.refreshFail 7)) ∧
    cfgFailAfter.isRefreshing = false ∧
    cfgNoTokAfter.logoutCount = 1 ∧
    cfgNoTokAfter.refreshCalls = 0 := by
  have h := (c3_unrecoverable_refresh cfgRefreshing
    ⟨some ("A1"), some ("R1"), evsRefreshing, rfl⟩).1 0 7 cfgFailAfter rfl
  have h2 := (c3_unrecoverable_refresh cfgNoRefreshTok
    ⟨some ("A1"), none,
     [Event.arrive ("/api/solo/session-logs/") (some 401)], rfl⟩).2
    0 { url := "/api/solo/session-logs/", auth := some ("Bearer A1"),
        retried := false }
    (ErrVal.http 0 (some 401)) rfl (by decide) rfl rfl
  obtain ⟨c2, hstep, hacc, hrt, hlog, hph, href, hcalls, hq⟩ := h2.2
  have hsome : some c2 = some cfgNoTokAfter := hstep.symm.trans rfl
  have hc2 : c2 = cfgNoTokAfter := (Option.some.injEq _ _).mp hsome
  subst hc2
  exact ⟨h.1 1 (by decide), h.2.1, h.2.2.1, h.2.2.2.1, h.2.2.2.2.1,
    h.2.2.2.2.2.1, hlog, hcalls⟩

/-- C4: on refresh-exchange success with a (non-empty) new access token, the
coordinator writes the token into the store, sets the default outgoing
Bearer credential, returns to IDLE with an empty queue, puts the triggering
request into replay carrying the new Authorization header, resolves every
queued PendingRequest with the new token so that its resumption replays the
original call with the new Bearer header, and persists the token: the
request interceptor attaches it to any descriptor, and a subsequently
arriving independent request carries it. -/
theorem c4_refresh_success (c : Cfg) (hre : Reach c) (i : Nat) (tok : String)
    (c2 : Cfg) (htok : tok ≠ "")
    (h : step c (Event.refreshOk i tok) = some c2) :
    c2.accessToken = some tok ∧
    c2.defaultAuth = some ("Bearer " ++ tok) ∧
    c2.isRefreshing = false ∧
    c2.failedQueue = [] ∧
    (∃ req : Req, taskPhase c2 i =
      some (Phase.awaitReplay { req with auth := some ("Bearer " ++ tok) })) ∧
    (∀ j ∈ c.failedQueue,
      ∃ r, taskPhase c2 j = some (Phase.queueResolved r tok) ∧
        ∀ c3, step c2 (Event.resume j) = some c3 →
          ∃ r2 : Req, taskPhase c3 j = some (Phase.awaitReplay r2) ∧
            r2.auth = some ("Bearer " ++ tok)) ∧
    (∀ cfg : ReqConfig,
      requestInterceptor c2.accessToken cfg =
        { cfg with authorization := some ("Bearer " ++ tok) }) ∧
    (∀ (url : String) (status : Option Nat) (c3 : Cfg),
      step c2 (Event.arrive url status) = some c3 →
      c3.tasks = c2.tasks ++
        [⟨c2.nextId, Phase.entry
            { url := url, auth := some ("Bearer " ++ tok), retried := false }
            (ErrVal.http c2.nextId status)⟩]) := by
  have hInv := reach_coordInv c hre
  obtain ⟨t, req, hg, hp, hc⟩ := step_refreshOk_inv c c2 i tok h
  have hacc : c2.accessToken = some tok := by rw [hc]
  refine ⟨hacc, by rw [hc], by rw [hc], by rw [hc],
    trigger_after_ok c c2 i tok h, ?_, ?_, ?_⟩
  · intro j hj
    obtain ⟨r, hrB, hrj⟩ := drained_ok c c2 i tok hInv h j hj
    refine ⟨r, hrj, ?_⟩
    intro c3 h3
    obtain ⟨tq, hgq, hpq⟩ := taskPhase_some_getTask c2 j _ hrj
    have hfwd := step_resume_fwd c2 j tq r tok hgq hpq
    have hsome : some c3 =
        some { c2 with
          tasks := setPhase c2.tasks j
            (Phase.awaitReplay { r with auth := some ("Bearer " ++ tok) }) } :=
      h3.symm.trans hfwd
    have hc3 := (Option.some.injEq _ _).mp hsome
    subst hc3
    refine ⟨{ r with auth := some ("Bearer " ++ tok) }, ?_, rfl⟩
    exact taskPhase_after_setPhase_self c2 j _ tq hgq
  · intro cfg
    rw [hacc]
    simp [requestInterceptor, htok]
  · intro url status c3 h3
    have hc3 := step_arrive_inv c2 c3 url status h3
    subst hc3
    show c2.tasks ++
        [⟨c2.nextId, Phase.entry
            { url := url, auth := attachAuth c2.accessToken none,
              retried := false }
            (ErrVal.http c2.nextId status)⟩] = _
    rw [hacc]
    simp [attachAuth, htok]

/-- C4 witness: refresh success with token T2 at a concrete reachable state
with one queued request. -/
theorem c4_refresh_success_witness :
    cfgSuccAfter.accessToken = some ("T2") ∧
    cfgSuccAfter.defaultAuth = some ("Bearer T2") ∧
    cfgSuccAfter.isRefreshing = false ∧
    cfgSuccAfter.failedQueue = [] ∧
    requestInterceptor cfgSuccAfter.accessToken sampleReqConfig =
      { sampleReqConfig with authorization := some ("Bearer T2") } ∧
    taskPhase cfgQueuedReplay 1 = some (Phase.awaitReplay
      { url := "/api/solo/session-logs/", auth := some ("Bearer T2"),
        retried := false }) := by
  have h := c4_refresh_success cfgRefreshing
    ⟨some ("A1"), some ("R1"), evsRefreshing, rfl⟩ 0 ("T2") cfgSuccAfter
    (by decide) rfl
  exact ⟨h.1, h.2.1, h.2.2.1, h.2.2.2.1, h.2.2.2.2.2.2.1 sampleReqConfig,
    rfl⟩

/-- C5: in every reachable configuration the pending queue is non-empty
only while `isRefreshing` is up; and the step that resolves a refresh
attempt — success or failure — settles every queue entry exactly once
(success resolves it with the new token, failure rejects it with the
refresh error), leaves the queue empty, and leaves no task waiting on the
queue at all, so no entry can ever be drained a second time. -/
theorem c5_queue_invariant (c : Cfg) (hre : Reach c) :
    (c.failedQueue ≠ [] → c.isRefreshing = true) ∧
    (∀ (i : Nat) (tok : String) (c2 : Cfg),
      step c (Event.refreshOk i tok) = some c2 →
      c2.failedQueue = [] ∧
      (∀ j ∈ c.failedQueue, ∃ r,
        taskPhase c j = some (Phase.awaitQueue r) ∧
        taskPhase c2 j = some (Phase.queueResolved r tok)) ∧
      (∀ t ∈ c2.tasks, isAwaitQueue t.phase = false)) ∧
    (∀ (i code : Nat) (c2 : Cfg),
      step c (Event.refreshFailEv i code) = some c2 →
      c2.failedQueue = [] ∧
      (∀ j ∈ c.failedQueue,
        taskPhase c2 j = some (Phase.doneErr (ErrVal.refreshFail code))) ∧
      (∀ t ∈ c2.tasks, isAwaitQueue t.phase = false)) := by
  have hInv := reach_coordInv c hre
  refine ⟨?_, ?_, ?_⟩
  · intro hne
    cases hb : c.isRefreshing with
    | true => rfl
    | false => exact absurd (hInv.1 hb) hne
  · intro i tok c2 h
    refine ⟨?_, fun j hj => drained_ok c c2 i tok hInv h j hj,
      noAQ_after_ok c c2 i tok hInv h⟩
    obtain ⟨t, req, hg, hp, hc⟩ := step_refreshOk_inv c c2 i tok h
    rw [hc]
  · intro i code c2 h
    refine ⟨?_, fun j hj => drained_err c c2 i code hInv h j hj,
      noAQ_after_err c c2 i code hInv h⟩
    obtain ⟨t, req, hg, hp, hc⟩ := step_refreshFail_inv c c2 i code h
    rw [hc]

/-- C5 witness: the invariant and both drain paths at concrete states. -/
theorem c5_queue_invariant_witness :
    cfgRefreshing.isRefreshing = true ∧
    cfgSuccAfter.failedQueue = [] ∧
    taskPhase cfgSuccAfter 1 = some (Phase.queueResolved
      { url := "/api/solo/session-logs/", auth := some ("Bearer A1"),
        retried := false } ("T2")) ∧
    cfgFailAfter.failedQueue = [] := by
  have h := c5_queue_invariant cfgRefreshing
    ⟨some ("A1"), some ("R1"), evsRefreshing, rfl⟩
  exact ⟨h.1 (by decide), (h.2.1 0 ("T2") cfgSuccAfter rfl).1, rfl,
    (h.2.2 0 7 cfgFailAfter rfl).1⟩

/-- C1: single-flight. From any reachable configuration with a refresh in
flight: no step whatsoever starts another refresh exchange, and along any
event sequence during which the refresh stays in flight the exchange
counter is constant; every eligible 401 entering the handler is appended to
the pending queue and suspended there; and when the in-flight refresh
resolves — success or failure — every queued entry is settled (resolved
with the new token, or rejected with the refresh error), the queue is
emptied, and no request is left waiting on the queue. -/
theorem c1_single_flight (c : Cfg) (hre : Reach c)
    (hrf : c.isRefreshing = true) :
    (∀ (e : Event) (c2 : Cfg), step c e = some c2 →
      c2.refreshCalls = c.refreshCalls) ∧
    (∀ (evs : List Event) (c2 : Cfg), runEvents c evs = some c2 →
      refreshingAlong c evs = true → c2.refreshCalls = c.refreshCalls) ∧
    (∀ (i : Nat) (req : Req) (err : ErrVal) (c2 : Cfg),
      taskPhase c i = some (Phase.entry req err) →
      intercepts (errStatus err) req = true →
      step c (Event.handle i) = some c2 →
      c2.failedQueue = c.failedQueue ++ [i] ∧
      taskPhase c2 i = some (Phase.awaitQueue req)) ∧
    (∀ (i : Nat) (tok : String) (c2 : Cfg),
      step c (Event.refreshOk i tok) = some c2 →
      c2.failedQueue = [] ∧
      (∀ j ∈ c.failedQueue, ∃ r,
        taskPhase c j = some (Phase.awaitQueue r) ∧
        taskPhase c2 j = some (Phase.queueResolved r tok)) ∧
      (∀ t ∈ c2.tasks, isAwaitQueue t.phase = false)) ∧
    (∀ (i code : Nat) (c2 : Cfg),
      step c (Event.refreshFailEv i code) = some c2 →
      c2.failedQueue = [] ∧
      (∀ j ∈ c.failedQueue,
        taskPhase c2 j = some (Phase.doneErr (ErrVal.refreshFail code))) ∧
      (∀ t ∈ c2.tasks, isAwaitQueue t.phase = false)) := by
  have hInv := reach_coordInv c hre
  refine ⟨?_, ?_, ?_, ?_, ?_⟩
  · intro e c2 h
    exact refreshCalls_const_of_refreshing c c2 e hrf h
  · intro evs c2 h ha
    exact refreshCalls_const_along c c2 evs h ha
  · intro i req err c2 hph hi h
    obtain ⟨hc, hph2⟩ := handle_queue_desc c c2 i req err hph hi hrf h
    subst hc
    exact ⟨rfl, hph2⟩
  · intro i tok c2 h
    refine ⟨?_, fun j hj => drained_ok c c2 i tok hInv h j hj,
      noAQ_after_ok c c2 i tok hInv h⟩
    obtain ⟨t, req, hg, hp, hc⟩ := step_refreshOk_inv c c2 i tok h
    rw [hc]
  · intro i code c2 h
    refine ⟨?_, fun j hj => drained_err c c2 i code hInv h j hj,
      noAQ_after_err c c2 i code hInv h⟩
    obtain ⟨t, req, hg, hp, hc⟩ := step_refreshFail_inv c c2 i code h
    rw [hc]

/-- C1 witness: a third 401 arriving during the refresh is queued (not a new
exchange), and resolution drains the queue. -/
theorem c1_single_flight_witness :
    cfgQueued3.failedQueue = [1, 2] ∧
    taskPhase cfgQueued3 2 = some (Phase.awaitQueue
      { url := "/api/solo/assigned-routines/", auth := some ("Bearer A1"),
        retried := false }) ∧
    cfgQueued3.refreshCalls = cfgRefreshing3.refreshCalls ∧
    cfgSuccAfter.failedQueue = [] := by
  have h := c1_single_flight cfgRefreshing3
    ⟨some ("A1"), some ("R1"), evsRefreshing3, rfl⟩ rfl
  have h2 := c1_single_flight cfgRefreshing
    ⟨some ("A1"), some ("R1"), evsRefreshing, rfl⟩ rfl
  have hq := h.2.2.1 2
    { url := "/api/solo/assigned-routines/", auth := some ("Bearer A1"),
      retried := false }
    (ErrVal.http 2 (some 401)) cfgQueued3 rfl (by decide) rfl
  exact ⟨hq.1, hq.2, h.1 (Event.handle 2) cfgQueued3 rfl,
    (h2.2.2.2.1 0 ("T2") cfgSuccAfter rfl).1⟩
